import Mathlib

/-
Shallow embedding of the dual option-alert system in `src/app.py` (an ETH
websocket bot and a BTC REST bot sharing arbitrage detection, user threshold
alerts, a cooldown gate, and an expiry lifecycle manager), together with
theorems settling the specification claims about it.

Conventions of the embedding:
* Python floats (prices, timestamps, thresholds) are modelled as `ℚ`.
* Python dicts are modelled as association lists with replace-or-append
  assignment (`setKey`) and `List.lookup`.
* Wall-clock reads (`datetime.now()`) and network fetches become explicit
  parameters of the embedded functions.
* Alert message strings are abstracted to records of the fields the source
  interpolates into them; cooldown keys are kept as the literal strings the
  source builds.
-/

/-- Quote record stored in `options_prices`: best bid and best ask (app.py
lines 479-483 and 959-963). -/
structure Quote where
  bid : ℚ
  ask : ℚ
deriving DecidableEq, Repr

/-- Global cooldown window `ALERT_COOLDOWN = 60` seconds (app.py line 24). -/
def ALERT_COOLDOWN : ℚ := 60

/-- Global expiry-check pacing `EXPIRY_CHECK_INTERVAL = 60` (app.py line 26). -/
def EXPIRY_CHECK_INTERVAL : ℚ := 60

/-- Default ETH arbitrage threshold `DELTA_THRESHOLD["ETH"] = 0.16`
(app.py line 23). -/
def DELTA_THRESHOLD_ETH : ℚ := 16 / 100

/-- Default BTC arbitrage threshold `DELTA_THRESHOLD["BTC"] = 2`
(app.py line 23). -/
def DELTA_THRESHOLD_BTC : ℚ := 2

/-- A wall-clock instant already converted to IST, as built by
`now + timedelta(hours=5, minutes=30)` in the source.  The calendar date is
abstracted to a day index `day`; Python's `timedelta(days=1)` is `day + 1`
and `strftime("%d%m%y")` renders a day index to the DDMMYY expiry code. -/
structure ISTTime where
  day : ℕ
  hour : ℕ
  minute : ℕ
deriving DecidableEq, Repr

/-- Embedding of `should_rollover_expiry` (app.py lines 215-223 for ETH and
748-756 for BTC; the two bodies are textually identical): return tomorrow's
date when `ist_now.hour >= 17 and ist_now.minute >= 30`, else `None`. -/
def shouldRolloverExpiry (t : ISTTime) : Option ℕ :=
  if 17 ≤ t.hour ∧ 30 ≤ t.minute then
    some (t.day + 1)
  else
    none

/-- Embedding of `get_initial_active_expiry` (app.py lines 201-213 and
734-746): same `hour >= 17 and minute >= 30` test; tomorrow's date when it
holds, today's otherwise. -/
def getInitialActiveExpiry (t : ISTTime) : ℕ :=
  if 17 ≤ t.hour ∧ 30 ≤ t.minute then
    t.day + 1
  else
    t.day

/-- Cooldown dictionary `last_alert_time`: alert-key string to last-fired
timestamp. -/
abbrev CoolMap : Type := List (String × ℚ)

/-- Python dict assignment `d[k] = v`: replace the binding if the key is
present, append it otherwise. -/
def setKey : CoolMap → String → ℚ → CoolMap
  | [], k, v => [(k, v)]
  | (k', v') :: rest, k, v =>
      if k' = k then (k, v) :: rest else (k', v') :: setKey rest k v

/-- Embedding of `can_alert` (app.py lines 672-679 for ETH, 1108-1114 for
BTC; identical bodies): look up the key's last-fired time with default 0,
permit and record `now` when `now - last_time >= ALERT_COOLDOWN`, otherwise
suppress and leave the map unchanged. -/
def canAlert (last : CoolMap) (now : ℚ) (key : String) : Bool × CoolMap :=
  if ALERT_COOLDOWN ≤ now - (List.lookup key last).getD 0 then
    (true, setKey last key now)
  else
    (false, last)

/-- Outcome of the HTTP POST inside `send_telegram`: either a response with
some status code, or a raised exception. -/
inductive PostOutcome where
  | ok (status : ℕ)
  | exn (msg : String)
deriving DecidableEq, Repr

/-- Embedding of `send_telegram` (app.py lines 88-105).  When the bot token
or chat id is missing it logs and returns; otherwise the POST runs inside
`try/except`: a 200 status logs success, any other status logs an error, and
a raised exception is caught and logged.  Every path falls through to a
normal return, so the embedded result is `Except.ok ()` in all cases. -/
def sendTelegram (configured : Bool) (o : PostOutcome) : Except String Unit :=
  if configured = false then
    Except.ok ()
  else
    match o with
    | PostOutcome.ok _ => Except.ok ()
    | PostOutcome.exn _ => Except.ok ()

/-- One alert's pass through the gate-then-send path used by both detectors
(`if self.can_alert(key): alerts.append(...)` followed by
`send_telegram(alert)` on the collected alert): the cooldown decision and
recording happen first, the delivery attempt happens after, and the
delivery outcome is not consulted again. -/
def fireAndSend (last : CoolMap) (now : ℚ) (key : String)
    (configured : Bool) (o : PostOutcome) : Except String Unit × CoolMap :=
  match canAlert last now key with
  | (true, m) => (sendTelegram configured o, m)
  | (false, m) => (Except.ok (), m)

/-- Call-side arbitrage firing test for one adjacent pair (app.py lines
606-613 and 1075-1082): requires `call1_ask > 0 and call2_bid > 0`, sets
`call_diff = call1_ask - call2_bid`, and fires when
`call_diff < 0 and abs(call_diff) >= threshold`. -/
def callFires (ask1 bid2 threshold : ℚ) : Bool :=
  if 0 < ask1 ∧ 0 < bid2 then
    let call_diff := ask1 - bid2
    decide (call_diff < 0 ∧ threshold ≤ |call_diff|)
  else
    false

/-- Put-side arbitrage firing test for one adjacent pair (app.py lines
622-629 and 1091-1098): requires `put1_bid > 0 and put2_ask > 0`, sets
`put_diff = put2_ask - put1_bid`, and fires when
`put_diff < 0 and abs(put_diff) >= threshold`. -/
def putFires (bid1 ask2 threshold : ℚ) : Bool :=
  if 0 < bid1 ∧ 0 < ask2 then
    let put_diff := ask2 - bid1
    decide (put_diff < 0 ∧ threshold ≤ |put_diff|)
  else
    false

lemma lookup_setKey_self (m : CoolMap) (k : String) (v : ℚ) :
    List.lookup k (setKey m k v) = some v := by
  induction m with
  | nil => simp [setKey, List.lookup]
  | cons hd tl ih =>
      obtain ⟨k', v'⟩ := hd
      by_cases h : k' = k
      · simp [setKey, h, List.lookup]
      · rw [setKey, if_neg h, List.lookup]
        have hne : (k == k') = false := beq_eq_false_iff_ne.mpr (Ne.symm h)
        simp [hne, ih]

lemma lookup_setKey_ne (m : CoolMap) (k : String) (v : ℚ) (k' : String)
    (h : k' ≠ k) : List.lookup k' (setKey m k v) = List.lookup k' m := by
  have hne : (k' == k) = false := beq_eq_false_iff_ne.mpr h
  induction m with
  | nil => simp [setKey, List.lookup, hne]
  | cons hd tl ih =>
      obtain ⟨k₀, v₀⟩ := hd
      by_cases h₀ : k₀ = k
      · subst h₀
        simp [setKey, List.lookup, hne]
      · rw [setKey, if_neg h₀]
        rw [List.lookup, List.lookup]
        cases hbe : (k' == k₀) <;> simp [hbe, ih]

lemma canAlert_true_eq (last : CoolMap) (now : ℚ) (key : String)
    (h : (canAlert last now key).1 = true) :
    canAlert last now key = (true, setKey last key now) := by
  unfold canAlert at h ⊢
  by_cases hc : ALERT_COOLDOWN ≤ now - (List.lookup key last).getD 0
  · rw [if_pos hc]
  · rw [if_neg hc] at h
    simp at h

lemma canAlert_false_eq (last : CoolMap) (now : ℚ) (key : String)
    (h : (canAlert last now key).1 = false) :
    canAlert last now key = (false, last) := by
  unfold canAlert at h ⊢
  by_cases hc : ALERT_COOLDOWN ≤ now - (List.lookup key last).getD 0
  · rw [if_pos hc] at h
    simp at h
  · rw [if_neg hc]

lemma canAlert_true_lookup (last : CoolMap) (now : ℚ) (key : String)
    (h : (canAlert last now key).1 = true) :
    List.lookup key (canAlert last now key).2 = some now := by
  rw [canAlert_true_eq last now key h]
  simpa using lookup_setKey_self last key now

/-- C5: `can_alert` permits and records exactly when the key is fresh or the
window has elapsed (for wall-clock times past the 60-second window, since a
missing key is represented by the sentinel last-time 0); a permit records
`now`, a suppression leaves the map untouched; a second detection within the
window after a permit is suppressed without changing the map, and a later
detection past the window is permitted again. -/
theorem canAlert_cooldown_contract (last : CoolMap) (now : ℚ) (key : String)
    (hnow : ALERT_COOLDOWN ≤ now) :
    ((canAlert last now key).1 = true ↔
      List.lookup key last = none ∨
        ∃ t, List.lookup key last = some t ∧ ALERT_COOLDOWN ≤ now - t) ∧
    ((canAlert last now key).1 = true →
      List.lookup key (canAlert last now key).2 = some now) ∧
    ((canAlert last now key).1 = false → (canAlert last now key).2 = last) ∧
    (∀ now', (canAlert last now key).1 = true →
      now' - now < ALERT_COOLDOWN →
      (canAlert (canAlert last now key).2 now' key).1 = false ∧
      (canAlert (canAlert last now key).2 now' key).2 =
        (canAlert last now key).2) ∧
    (∀ now'', (canAlert last now key).1 = true →
      ALERT_COOLDOWN ≤ now'' - now →
      (canAlert (canAlert last now key).2 now'' key).1 = true) := by
  have hrec := canAlert_true_lookup last now key
  refine ⟨?_, hrec, fun hf => by rw [canAlert_false_eq last now key hf], ?_, ?_⟩
  · cases hl : List.lookup key last with
    | none =>
        unfold canAlert
        rw [hl]
        simp only [Option.getD_none, sub_zero]
        rw [if_pos hnow]
        simp
    | some t =>
        unfold canAlert
        rw [hl]
        simp only [Option.getD_some]
        split
        · simp_all
        · simp_all
  · intro now' htrue hlt
    rw [canAlert_true_eq last now key htrue]
    have hstep : canAlert (setKey last key now) now' key = (false, setKey last key now) := by
      unfold canAlert
      rw [lookup_setKey_self]
      simp only [Option.getD_some]
      rw [if_neg (not_le.mpr hlt)]
    simp [hstep]
  · intro now'' htrue hge
    rw [canAlert_true_eq last now key htrue]
    have hstep : canAlert (setKey last key now) now'' key =
        (true, setKey (setKey last key now) key now'') := by
      unfold canAlert
      rw [lookup_setKey_self]
      simp only [Option.getD_some]
      rw [if_pos hge]
    simp [hstep]

/-- Witness for `canAlert_cooldown_contract` at a fresh key, permit time 100,
a suppressed re-detection at 150, and a permitted one at 160. -/
theorem canAlert_cooldown_contract_witness :
    ALERT_COOLDOWN ≤ (100 : ℚ) ∧
    (((canAlert [] 100 "ETH_CALL_3000_3100_010126").1 = true ↔
      List.lookup "ETH_CALL_3000_3100_010126" ([] : CoolMap) = none ∨
        ∃ t, List.lookup "ETH_CALL_3000_3100_010126" ([] : CoolMap) = some t ∧
          ALERT_COOLDOWN ≤ 100 - t) ∧
    ((canAlert [] 100 "ETH_CALL_3000_3100_010126").1 = true →
      List.lookup "ETH_CALL_3000_3100_010126"
        (canAlert [] 100 "ETH_CALL_3000_3100_010126").2 = some 100) ∧
    ((canAlert [] 100 "ETH_CALL_3000_3100_010126").1 = false →
      (canAlert [] 100 "ETH_CALL_3000_3100_010126").2 = []) ∧
    (∀ now', (canAlert [] 100 "ETH_CALL_3000_3100_010126").1 = true →
      now' - 100 < ALERT_COOLDOWN →
      (canAlert (canAlert [] 100 "ETH_CALL_3000_3100_010126").2 now'
        "ETH_CALL_3000_3100_010126").1 = false ∧
      (canAlert (canAlert [] 100 "ETH_CALL_3000_3100_010126").2 now'
        "ETH_CALL_3000_3100_010126").2 =
        (canAlert [] 100 "ETH_CALL_3000_3100_010126").2) ∧
    (∀ now'', (canAlert [] 100 "ETH_CALL_3000_3100_010126").1 = true →
      ALERT_COOLDOWN ≤ now'' - 100 →
      (canAlert (canAlert [] 100 "ETH_CALL_3000_3100_010126").2 now''
        "ETH_CALL_3000_3100_010126").1 = true)) :=
  ⟨by norm_num [ALERT_COOLDOWN],
   canAlert_cooldown_contract [] 100 "ETH_CALL_3000_3100_010126"
     (by norm_num [ALERT_COOLDOWN])⟩

/-- C9: a notification delivery failure (non-200 status or a raised
exception) never escapes `send_telegram`, and the cooldown record made by
`can_alert` at permit time is unaffected by the delivery outcome: the
post-send cooldown map is exactly `can_alert`'s map, and after a permit the
key still maps to the firing time whatever the outcome was. -/
theorem sendFailure_keeps_cooldown (last : CoolMap) (now : ℚ) (key : String)
    (configured : Bool) (o : PostOutcome) :
    sendTelegram configured o = Except.ok () ∧
    (fireAndSend last now key configured o).1 = Except.ok () ∧
    (fireAndSend last now key configured o).2 = (canAlert last now key).2 ∧
    ((canAlert last now key).1 = true →
      List.lookup key (fireAndSend last now key configured o).2 = some now) := by
  have hsend : sendTelegram configured o = Except.ok () := by
    unfold sendTelegram
    cases configured <;> cases o <;> simp
  refine ⟨hsend, ?_, ?_, ?_⟩
  · unfold fireAndSend
    cases h : canAlert last now key with
    | mk b m => cases b <;> simp [hsend]
  · unfold fireAndSend
    cases h : canAlert last now key with
    | mk b m => cases b <;> simp
  · intro htrue
    have hl := canAlert_true_lookup last now key htrue
    unfold fireAndSend
    cases h : canAlert last now key with
    | mk b m =>
        cases b <;> simp_all

/-- Witness for `sendFailure_keeps_cooldown`: a permitted firing whose
delivery raises an exception still leaves the key recorded at time 100. -/
theorem sendFailure_keeps_cooldown_witness :
    (canAlert [] 100 "BTC_PUT_90000_92000").1 = true ∧
    List.lookup "BTC_PUT_90000_92000"
      (fireAndSend [] 100 "BTC_PUT_90000_92000" true
        (PostOutcome.exn "connection refused")).2 = some 100 ∧
    (fireAndSend [] 100 "BTC_PUT_90000_92000" true
      (PostOutcome.exn "connection refused")).1 = Except.ok () := by
  have h := sendFailure_keeps_cooldown [] 100 "BTC_PUT_90000_92000" true
    (PostOutcome.exn "connection refused")
  have htrue : (canAlert [] 100 "BTC_PUT_90000_92000").1 = true := by
    unfold canAlert
    norm_num [ALERT_COOLDOWN, List.lookup]
  exact ⟨htrue, h.2.2.2 htrue, h.2.1⟩

/-- C4: for a positive threshold the call rule fires exactly when the lower
strike's ask and the higher strike's bid are both positive and the gap
`bid(call,s2) - ask(call,s1)` is at least the threshold; symmetrically for
puts with gap `bid(put,s1) - ask(put,s2)`; and neither rule fires when its
signed gap is negative, however large its magnitude. -/
theorem arbitrage_pair_rule (a b p q t : ℚ) (ht : 0 < t) :
    (callFires a b t = true ↔ 0 < a ∧ 0 < b ∧ t ≤ b - a) ∧
    (putFires p q t = true ↔ 0 < p ∧ 0 < q ∧ t ≤ p - q) ∧
    (b - a < 0 → callFires a b t = false) ∧
    (p - q < 0 → putFires p q t = false) := by
  refine ⟨?_, ?_, ?_, ?_⟩
  · unfold callFires
    split
    · rename_i hpos
      simp only [decide_eq_true_eq]
      constructor
      · rintro ⟨hd, habs⟩
        rw [abs_of_neg hd] at habs
        exact ⟨hpos.1, hpos.2, by linarith⟩
      · rintro ⟨_, _, hgap⟩
        have hd : a - b < 0 := by linarith
        rw [abs_of_neg hd]
        exact ⟨hd, by linarith⟩
    · rename_i hpos
      simp only [Bool.false_eq_true, false_iff]
      rintro ⟨ha, hb, _⟩
      exact hpos ⟨ha, hb⟩
  · unfold putFires
    split
    · rename_i hpos
      simp only [decide_eq_true_eq]
      constructor
      · rintro ⟨hd, habs⟩
        rw [abs_of_neg hd] at habs
        exact ⟨hpos.1, hpos.2, by linarith⟩
      · rintro ⟨_, _, hgap⟩
        have hd : q - p < 0 := by linarith
        rw [abs_of_neg hd]
        exact ⟨hd, by linarith⟩
    · rename_i hpos
      simp only [Bool.false_eq_true, false_iff]
      rintro ⟨hp, hq, _⟩
      exact hpos ⟨hp, hq⟩
  · intro hneg
    unfold callFires
    split
    · simp only [decide_eq_true_eq, decide_eq_false_iff_not]
      rintro ⟨hd, habs⟩
      rw [abs_of_neg hd] at habs
      linarith
    · rfl
  · intro hneg
    unfold putFires
    split
    · simp only [decide_eq_true_eq, decide_eq_false_iff_not]
      rintro ⟨hd, habs⟩
      rw [abs_of_neg hd] at habs
      linarith

    · rfl

/-- Witness for `arbitrage_pair_rule` at the spec's scenario 1 numbers:
ask 5.00 at the lower strike, bid 5.20 at the higher, threshold 0.10. -/
theorem arbitrage_pair_rule_witness :
    (0 : ℚ) < 1 / 10 ∧
    ((callFires 5 (26 / 5) (1 / 10) = true ↔
        (0 : ℚ) < 5 ∧ (0 : ℚ) < 26 / 5 ∧ (1 : ℚ) / 10 ≤ 26 / 5 - 5) ∧
     (putFires 5 (26 / 5) (1 / 10) = true ↔
        (0 : ℚ) < 5 ∧ (0 : ℚ) < 26 / 5 ∧ (1 : ℚ) / 10 ≤ 5 - 26 / 5) ∧
     ((26 : ℚ) / 5 - 5 < 0 → callFires 5 (26 / 5) (1 / 10) = false) ∧
     ((5 : ℚ) - 26 / 5 < 0 → putFires 5 (26 / 5) (1 / 10) = false)) :=
  ⟨by norm_num, arbitrage_pair_rule 5 (26 / 5) 5 (26 / 5) (1 / 10) (by norm_num)⟩

/-- C1 (code bug): the source's cutover test `ist_now.hour >= 17 and
ist_now.minute >= 30` is not "at or after 17:30 IST".  At 18:00 IST — 1080
minutes into the day, past the 1050-minute (17:30) cutover that the
program's own banner ("Auto-expiry at 5:30 PM IST") announces — the check
reports no rollover candidate, while at 17:30 it reports tomorrow. -/
theorem rollover_cutover_bug :
    (17 * 60 + 30 ≤ 18 * 60 + 0) ∧
    shouldRolloverExpiry ⟨0, 18, 0⟩ = none ∧
    shouldRolloverExpiry ⟨0, 17, 30⟩ = some 1 ∧
    getInitialActiveExpiry ⟨0, 18, 0⟩ = 0 := by
  refine ⟨by norm_num, ?_, ?_, ?_⟩ <;> decide

/-- Python `str.isdigit()` on the symbol parts: nonempty and all digits. -/
def isDigitStr (s : String) : Bool :=
  0 < s.length && s.toList.all Char.isDigit

/-- Python `s.split(sep)` for a one-character separator, over the character
list: an empty input yields one empty part, a separator character opens a
new part, any other character is prepended to the current first part. -/
def splitParts (sep : Char) : List Char → List (List Char)
  | [] => [[]]
  | c :: rest =>
      let ps := splitParts sep rest
      if c == sep then [] :: ps
      else
        match ps with
        | [] => [[c]]
        | p :: ps' => (c :: p) :: ps'

/-- Python `symbol.split('-')` as used by the parsers. -/
def pySplitDash (s : String) : List String :=
  (splitParts '-' s.toList).map List.asString

/-- Python `int(part)` on an all-digit string: base-10 digit accumulation. -/
def digitsToNat (cs : List Char) : ℕ :=
  cs.foldl (fun n c => n * 10 + (c.toNat - '0'.toNat)) 0

/-- Embedding of `extract_strike` (app.py lines 341-350 and 870-879): split
the symbol on `-` and return the first part that is all digits and longer
than two characters, as an integer; 0 when none is found. -/
def extractStrike (symbol : String) : ℕ :=
  match (pySplitDash symbol).find? (fun part => isDigitStr part && decide (2 < part.length)) with
  | some part => digitsToNat part.toList
  | none => 0

/-- Character-list prefix test used by the substring embedding. -/
def charsBeginWith : List Char → List Char → Bool
  | [], _ => true
  | _ :: _, [] => false
  | a :: as, b :: bs => a == b && charsBeginWith as bs

/-- Character-list substring test used by the substring embedding. -/
def charsOccur (pat : List Char) : List Char → Bool
  | [] => pat.isEmpty
  | c :: rest => charsBeginWith pat (c :: rest) || charsOccur pat rest

/-- Python's substring containment `pat in s`. -/
def strOccurs (pat s : String) : Bool :=
  charsOccur pat.toList s.toList

/-- One element of the `eth_options` list built in
`check_arbitrage_opportunities` (app.py lines 558-567). -/
structure EthOption where
  symbol : String
  bid : ℚ
  ask : ℚ
deriving DecidableEq, Repr

/-- One value of the per-strike dict built by `check_arbitrage_same_expiry`
(app.py lines 574-592): the call and put sub-dicts start out as empty dicts
(`none` here) and are replaced by quote dicts when a matching symbol is
seen, so `.get('ask', 0)` becomes `Option.map` plus `getD 0`. -/
structure StrikeEntry where
  call : Option Quote
  put : Option Quote
deriving DecidableEq, Repr

/-- Generic Python dict assignment for the strike-grouping dicts. -/
def setAssoc {β : Type} : List (ℕ × β) → ℕ → β → List (ℕ × β)
  | [], k, v => [(k, v)]
  | (k', v') :: rest, k, v =>
      if k' = k then (k, v) :: rest else (k', v') :: setAssoc rest k v

/-- Grouping loop of `check_arbitrage_same_expiry` (app.py lines 574-592):
for each option with a positive extracted strike, ensure a `call`/`put`
entry pair exists, then store the quote under `call` if the symbol contains
`"C-"`, else under `put` if it contains `"P-"`. -/
def buildStrikes (options : List EthOption) : List (ℕ × StrikeEntry) :=
  options.foldl
    (fun strikes option =>
      let strike := extractStrike option.symbol
      if 0 < strike then
        let strikes :=
          if (List.lookup strike strikes).isNone then
            setAssoc strikes strike ⟨none, none⟩
          else strikes
        let entry := (List.lookup strike strikes).getD ⟨none, none⟩
        if strOccurs "C-" option.symbol then
          setAssoc strikes strike { entry with call := some ⟨option.bid, option.ask⟩ }
        else if strOccurs "P-" option.symbol then
          setAssoc strikes strike { entry with put := some ⟨option.bid, option.ask⟩ }
        else strikes
      else strikes)
    []

/-- Adjacent index pairs `(sorted[i], sorted[i+1])` of the loop
`for i in range(len(sorted_strikes) - 1)`. -/
def adjacentPairs : List ℕ → List (ℕ × ℕ)
  | [] => []
  | [_] => []
  | a :: b :: rest => (a, b) :: adjacentPairs (b :: rest)

/-- ETH call-side cooldown key `f"ETH_CALL_{strike1}_{strike2}_{self.active_expiry}"`
(app.py line 612). -/
def ethCallArbKey (s1 s2 : ℕ) (activeExpiry : String) : String :=
  "ETH_CALL_" ++ toString s1 ++ "_" ++ toString s2 ++ "_" ++ activeExpiry

/-- ETH put-side cooldown key `f"ETH_PUT_{strike1}_{strike2}_{self.active_expiry}"`
(app.py line 628). -/
def ethPutArbKey (s1 s2 : ℕ) (activeExpiry : String) : String :=
  "ETH_PUT_" ++ toString s1 ++ "_" ++ toString s2 ++ "_" ++ activeExpiry

/-- BTC call-side cooldown key `f"BTC_CALL_{strike1}_{strike2}"`
(app.py line 1081): no expiry component. -/
def btcCallArbKey (s1 s2 : ℕ) : String :=
  "BTC_CALL_" ++ toString s1 ++ "_" ++ toString s2

/-- BTC put-side cooldown key `f"BTC_PUT_{strike1}_{strike2}"`
(app.py line 1097): no expiry component. -/
def btcPutArbKey (s1 s2 : ℕ) : String :=
  "BTC_PUT_" ++ toString s1 ++ "_" ++ toString s2

/-- Modelled from the spec's key description for comparison: an arbitrage
firing key built from the full tuple (asset, side, s1, s2, active expiry). -/
def specArbKey (asset side : String) (s1 s2 : ℕ) (activeExpiry : String) : String :=
  asset ++ "_" ++ side ++ "_" ++ toString s1 ++ "_" ++ toString s2 ++ "_" ++ activeExpiry

/-- An emitted arbitrage alert, abstracting the Telegram message text to the
fields interpolated into it (strike pair, the two anchor prices, the profit
and the active expiry; the wall-clock display time is omitted). -/
structure ArbAlert where
  asset : String
  side : String
  s1 : ℕ
  s2 : ℕ
  priceA : ℚ
  priceB : ℚ
  profit : ℚ
  expiry : String
deriving DecidableEq, Repr

/-- Body of the ETH adjacent-pair loop (app.py lines 601-635): call test
with `ask` of the lower strike against `bid` of the higher, then put test
with `bid` of the lower strike against `ask` of the higher, each gated by
`can_alert` on its key. -/
def ethPairCheck (strikes : List (ℕ × StrikeEntry)) (activeExpiry : String)
    (threshold now : ℚ) (acc : List ArbAlert × CoolMap) (pr : ℕ × ℕ) :
    List ArbAlert × CoolMap :=
  let strike1 := pr.1
  let strike2 := pr.2
  let e1 := (List.lookup strike1 strikes).getD ⟨none, none⟩
  let e2 := (List.lookup strike2 strikes).getD ⟨none, none⟩
  let call1_ask := (e1.call.map Quote.ask).getD 0
  let call2_bid := (e2.call.map Quote.bid).getD 0
  let acc :=
    if callFires call1_ask call2_bid threshold then
      match canAlert acc.2 now (ethCallArbKey strike1 strike2 activeExpiry) with
      | (true, c) =>
          (acc.1 ++ [⟨"ETH", "CALL", strike1, strike2, call1_ask, call2_bid,
            |call1_ask - call2_bid|, activeExpiry⟩], c)
      | (false, c) => (acc.1, c)
    else acc
  let put1_bid := (e1.put.map Quote.bid).getD 0
  let put2_ask := (e2.put.map Quote.ask).getD 0
  if putFires put1_bid put2_ask threshold then
    match canAlert acc.2 now (ethPutArbKey strike1 strike2 activeExpiry) with
    | (true, c) =>
        (acc.1 ++ [⟨"ETH", "PUT", strike1, strike2, put2_ask, put1_bid,
          |put2_ask - put1_bid|, activeExpiry⟩], c)
    | (false, c) => (acc.1, c)
  else acc

/-- Embedding of `check_arbitrage_same_expiry` (app.py lines 572-641): group
the option list by extracted strike, sort the strikes, return early when
fewer than two strikes are present, and scan every adjacent pair, threading
the cooldown map; the collected alerts are the ones sent afterwards. -/
def ethCheckArbitrageSameExpiry (options : List EthOption) (activeExpiry : String)
    (threshold : ℚ) (cool : CoolMap) (now : ℚ) : List ArbAlert × CoolMap :=
  let strikes := buildStrikes options
  let sorted_strikes := List.insertionSort (· ≤ ·) (strikes.map Prod.fst)
  if sorted_strikes.length < 2 then ([], cool)
  else (adjacentPairs sorted_strikes).foldl
    (ethPairCheck strikes activeExpiry threshold now) ([], cool)

/-- Embedding of `check_arbitrage_opportunities` (app.py lines 553-570):
skip the tick entirely when the snapshot `options_prices` holds fewer than
10 quoted symbols; otherwise collect the symbols containing `"ETH"` and run
the same-expiry scan on them when any remain. -/
def ethCheckArbitrageOpportunities (optionsPrices : List (String × Quote))
    (activeExpiry : String) (threshold : ℚ) (cool : CoolMap) (now : ℚ) :
    List ArbAlert × CoolMap :=
  if optionsPrices.length < 10 then ([], cool)
  else
    let eth_options := optionsPrices.filterMap
      (fun p => if strOccurs "ETH" p.1 then some (EthOption.mk p.1 p.2.bid p.2.ask) else none)
    if eth_options.isEmpty then ([], cool)
    else ethCheckArbitrageSameExpiry eth_options activeExpiry threshold cool now

/-- One side's bid/ask cell of the BTC `grouped` dict (app.py line 997):
both prices default to 0. -/
structure SidePrices where
  bid : ℚ
  ask : ℚ
deriving DecidableEq, Repr

/-- One strike's value in the BTC `grouped` dict: call and put cells. -/
structure GroupedEntry where
  call : SidePrices
  put : SidePrices
deriving DecidableEq, Repr

/-- Body of the BTC adjacent-pair loop (app.py lines 1070-1104): identical
firing logic to ETH, but the cooldown keys carry no expiry component. -/
def btcPairCheck (grouped : List (ℕ × GroupedEntry)) (activeExpiry : String)
    (threshold now : ℚ) (acc : List ArbAlert × CoolMap) (pr : ℕ × ℕ) :
    List ArbAlert × CoolMap :=
  let strike1 := pr.1
  let strike2 := pr.2
  let e1 := (List.lookup strike1 grouped).getD ⟨⟨0, 0⟩, ⟨0, 0⟩⟩
  let e2 := (List.lookup strike2 grouped).getD ⟨⟨0, 0⟩, ⟨0, 0⟩⟩
  let call1_ask := e1.call.ask
  let call2_bid := e2.call.bid
  let acc :=
    if callFires call1_ask call2_bid threshold then
      match canAlert acc.2 now (btcCallArbKey strike1 strike2) with
      | (true, c) =>
          (acc.1 ++ [⟨"BTC", "CALL", strike1, strike2, call1_ask, call2_bid,
            |call1_ask - call2_bid|, activeExpiry⟩], c)
      | (false, c) => (acc.1, c)
    else acc
  let put1_bid := e1.put.bid
  let put2_ask := e2.put.ask
  if putFires put1_bid put2_ask threshold then
    match canAlert acc.2 now (btcPutArbKey strike1 strike2) with
    | (true, c) =>
        (acc.1 ++ [⟨"BTC", "PUT", strike1, strike2, put2_ask, put1_bid,
          |put2_ask - put1_bid|, activeExpiry⟩], c)
    | (false, c) => (acc.1, c)
  else acc

/-- Embedding of the BTC `check_arbitrage` (app.py lines 1062-1106): return
no alerts on an empty grouped dict — there is no minimum-symbol-count guard
on this path — otherwise sort the strikes and scan every adjacent pair. -/
def btcCheckArbitrage (grouped : List (ℕ × GroupedEntry)) (activeExpiry : String)
    (threshold : ℚ) (cool : CoolMap) (now : ℚ) : List ArbAlert × CoolMap :=
  if grouped.isEmpty then ([], cool)
  else
    let strikes := List.insertionSort (· ≤ ·) (grouped.map Prod.fst)
    (adjacentPairs strikes).foldl
      (btcPairCheck grouped activeExpiry threshold now) ([], cool)

/-- A concrete two-strike BTC book: strike 100 (call ask 5) and strike 200
(call bid 10) — a call-monotonicity violation with gap 5. -/
def btcTwoStrikeBook : List (ℕ × GroupedEntry) :=
  [(100, ⟨⟨0, 5⟩, ⟨0, 0⟩⟩), (200, ⟨⟨10, 0⟩, ⟨0, 0⟩⟩)]

/-- A concrete two-symbol ETH option list matching `btcTwoStrikeBook`. -/
def ethTwoStrikeBook : List EthOption :=
  [⟨"C-ETH-100-010126", 0, 5⟩, ⟨"C-ETH-200-010126", 10, 0⟩]

/-- C2 (code bug): the ETH arbitrage cooldown key carries the active expiry
but the BTC one does not — `f"BTC_CALL_{strike1}_{strike2}"` has no expiry
component, so the BTC key is not built from the claimed (asset, side, s1,
s2, active expiry) tuple: the recorded cooldown state of a BTC scan is
identical under two different active expiries.  The spec's own design notes
(§9) flag this asymmetry as a defect of the source. -/
theorem btc_arb_key_missing_expiry :
    btcCallArbKey 100 200 = "BTC_CALL_100_200" ∧
    btcCallArbKey 100 200 ≠ specArbKey "BTC" "CALL" 100 200 "010126" ∧
    ethCallArbKey 100 200 "010126" = specArbKey "ETH" "CALL" 100 200 "010126" ∧
    (btcCheckArbitrage btcTwoStrikeBook "010126" DELTA_THRESHOLD_BTC [] 100).2 =
      [("BTC_CALL_100_200", 100)] ∧
    (btcCheckArbitrage btcTwoStrikeBook "010126" DELTA_THRESHOLD_BTC [] 100).2 =
      (btcCheckArbitrage btcTwoStrikeBook "020126" DELTA_THRESHOLD_BTC [] 100).2 ∧
    (ethCheckArbitrageSameExpiry ethTwoStrikeBook "010126" DELTA_THRESHOLD_ETH [] 100).2 =
      [("ETH_CALL_100_200_010126", 100)] := by
  have hbtc1 : (btcCheckArbitrage btcTwoStrikeBook "010126" DELTA_THRESHOLD_BTC [] 100).2 =
      [("BTC_CALL_100_200", 100)] := by
    norm_num [btcCheckArbitrage, btcPairCheck, adjacentPairs, callFires, putFires,
      canAlert, setKey, ALERT_COOLDOWN, DELTA_THRESHOLD_BTC, List.insertionSort,
      List.orderedInsert, btcTwoStrikeBook, btcCallArbKey, btcPutArbKey, List.lookup,
      abs_of_neg, show ((200 : ℕ) == 100) = false from by decide,
      show ((100 : ℕ) == 100) = true from by decide,
      show ((200 : ℕ) == 200) = true from by decide]
    decide
  have hbtc2 : (btcCheckArbitrage btcTwoStrikeBook "020126" DELTA_THRESHOLD_BTC [] 100).2 =
      [("BTC_CALL_100_200", 100)] := by
    norm_num [btcCheckArbitrage, btcPairCheck, adjacentPairs, callFires, putFires,
      canAlert, setKey, ALERT_COOLDOWN, DELTA_THRESHOLD_BTC, List.insertionSort,
      List.orderedInsert, btcTwoStrikeBook, btcCallArbKey, btcPutArbKey, List.lookup,
      abs_of_neg, show ((200 : ℕ) == 100) = false from by decide,
      show ((100 : ℕ) == 100) = true from by decide,
      show ((200 : ℕ) == 200) = true from by decide]
    decide
  have hgroup : buildStrikes ethTwoStrikeBook =
      [(100, ⟨some ⟨0, 5⟩, none⟩), (200, ⟨some ⟨10, 0⟩, none⟩)] := by decide
  have heth : (ethCheckArbitrageSameExpiry ethTwoStrikeBook "010126"
      DELTA_THRESHOLD_ETH [] 100).2 = [("ETH_CALL_100_200_010126", 100)] := by
    unfold ethCheckArbitrageSameExpiry
    rw [hgroup]
    norm_num [ethPairCheck, adjacentPairs,
      callFires, putFires, canAlert, setKey, ALERT_COOLDOWN, DELTA_THRESHOLD_ETH,
      List.insertionSort, List.orderedInsert, List.lookup, abs_of_neg,
      ethCallArbKey, ethPutArbKey, show ((200 : ℕ) == 100) = false from by decide,
      show ((100 : ℕ) == 100) = true from by decide,
      show ((200 : ℕ) == 200) = true from by decide]
    decide
  exact ⟨rfl, by decide, rfl, hbtc1, hbtc1.trans hbtc2.symm, heth⟩

/-- C3 counterexample: a BTC detection tick over a snapshot with only two
strikes (at most four quoted symbols, fewer than the claimed minimum of 10)
is not skipped — it runs the adjacent-pair scan and fires an alert. -/
theorem btc_tick_not_skipped_on_sparse_book :
    btcTwoStrikeBook.length = 2 ∧
    (btcCheckArbitrage btcTwoStrikeBook "010126" DELTA_THRESHOLD_BTC [] 100).1 ≠ [] := by
  refine ⟨rfl, ?_⟩
  norm_num [btcCheckArbitrage, btcPairCheck, adjacentPairs, callFires, putFires,
    canAlert, setKey, ALERT_COOLDOWN, DELTA_THRESHOLD_BTC, List.insertionSort,
    List.orderedInsert, btcTwoStrikeBook, btcCallArbKey, btcPutArbKey, List.lookup,
    abs_of_neg, show ((200 : ℕ) == 100) = false from by decide,
    show ((100 : ℕ) == 100) = true from by decide,
    show ((200 : ℕ) == 200) = true from by decide]

/-- C3 amended: only the ETH bot guards its arbitrage tick with the
10-quoted-symbol minimum; the BTC bot's scan returns nothing only on an
empty grouped book. -/
theorem arb_min_book_guard (optionsPrices : List (String × Quote))
    (activeExpiry : String) (threshold : ℚ) (cool : CoolMap) (now : ℚ)
    (h : optionsPrices.length < 10) :
    ethCheckArbitrageOpportunities optionsPrices activeExpiry threshold cool now
      = ([], cool) ∧
    btcCheckArbitrage [] activeExpiry threshold cool now = ([], cool) := by
  constructor
  · unfold ethCheckArbitrageOpportunities
    rw [if_pos h]
  · simp [btcCheckArbitrage]

/-- Witness for `arb_min_book_guard` on an empty nine-entry-free snapshot. -/
theorem arb_min_book_guard_witness :
    ([] : List (String × Quote)).length < 10 ∧
    (ethCheckArbitrageOpportunities [] "010126" DELTA_THRESHOLD_ETH [] 100
        = ([], []) ∧
     btcCheckArbitrage [] "010126" DELTA_THRESHOLD_BTC [] 100 = ([], [])) :=
  ⟨by decide, arb_min_book_guard [] "010126" DELTA_THRESHOLD_ETH [] 100 (by decide)
    |>.imp id (fun _ => by simp [btcCheckArbitrage])⟩

/-- The `AlertConfig` dataclass (app.py lines 32-38): strike threshold,
premium threshold, monitoring flag, last-updated stamp and bound expiry. -/
structure AlertConfig where
  strike : ℚ
  premium : ℚ
  is_monitoring : Bool
  last_updated : String
  active_expiry : String
deriving DecidableEq, Repr

/-- An alert dict appended by `check_user_alerts` (app.py lines 517-524 and
analogues): asset, option type, triggering strike, its bid, the rule strike
and the premium threshold. -/
structure UserAlert where
  asset : String
  type : String
  trigger_strike : ℕ
  bid_price : ℚ
  config_strike : ℚ
  threshold : ℚ
deriving DecidableEq, Repr

/-- ETH call threshold-alert cooldown key
`f"ETH_CALL_ALERT_{strike}_{eth_call_config.strike}"` (app.py line 515). -/
def ethCallUserKey (strike : ℕ) (cfgStrike : ℚ) : String :=
  "ETH_CALL_ALERT_" ++ toString strike ++ "_" ++ toString cfgStrike

/-- ETH put threshold-alert cooldown key (app.py line 538). -/
def ethPutUserKey (strike : ℕ) (cfgStrike : ℚ) : String :=
  "ETH_PUT_ALERT_" ++ toString strike ++ "_" ++ toString cfgStrike

/-- BTC call threshold-alert cooldown key (app.py line 1024). -/
def btcCallUserKey (strike : ℕ) (cfgStrike : ℚ) : String :=
  "BTC_CALL_ALERT_" ++ toString strike ++ "_" ++ toString cfgStrike

/-- BTC put threshold-alert cooldown key (app.py line 1047). -/
def btcPutUserKey (strike : ℕ) (cfgStrike : ℚ) : String :=
  "BTC_PUT_ALERT_" ++ toString strike ++ "_" ++ toString cfgStrike

/-- One iteration of the per-strike loop shared (up to the side condition,
key prefix and alert fields) by the four blocks of `check_user_alerts`
(app.py lines 511-524, 534-547, 1020-1033, 1043-1056): when the side
condition on the strike holds, read the strike's quote from the snapshot;
if present and its bid reaches the premium threshold, pass the key through
`can_alert` and collect the alert on a permit. -/
def userAlertStep (mkKey : ℕ → String) (cond : ℕ → Bool)
    (mkAlert : ℕ → ℚ → UserAlert) (premium : ℚ)
    (prices : List (String × Quote)) (now : ℚ)
    (acc : List UserAlert × CoolMap) (p : ℕ × String) :
    List UserAlert × CoolMap :=
  if cond p.1 then
    match List.lookup p.2 prices with
    | some price_data =>
        if premium ≤ price_data.bid then
          match canAlert acc.2 now (mkKey p.1) with
          | (true, c) => (acc.1 ++ [mkAlert p.1 price_data.bid], c)
          | (false, c) => (acc.1, c)
        else acc
    | none => acc
  else acc

/-- Full per-rule scan of `check_user_alerts`: fold `userAlertStep` over the
sorted option chain, starting from an empty alert list. -/
def userAlertScanCore (mkKey : ℕ → String) (cond : ℕ → Bool)
    (mkAlert : ℕ → ℚ → UserAlert) (premium : ℚ)
    (chain : List (ℕ × String)) (prices : List (String × Quote))
    (cool : CoolMap) (now : ℚ) : List UserAlert × CoolMap :=
  chain.foldl (userAlertStep mkKey cond mkAlert premium prices now) ([], cool)

/-- Embedding of the ETH-call block of `check_user_alerts` (app.py lines
502-528): nothing happens unless the global system flag is on and the rule
is monitoring with positive strike and premium. -/
def ethCheckUserAlertsCall (systemActive : Bool) (cfg : AlertConfig)
    (chainCalls : List (ℕ × String)) (prices : List (String × Quote))
    (cool : CoolMap) (now : ℚ) : List UserAlert × CoolMap :=
  if systemActive = false then ([], cool)
  else if cfg.is_monitoring ∧ 0 < cfg.strike ∧ 0 < cfg.premium then
    userAlertScanCore (fun strike => ethCallUserKey strike cfg.strike)
      (fun strike => decide (cfg.strike < (strike : ℚ)))
      (fun strike bid => ⟨"ETH", "call", strike, bid, cfg.strike, cfg.premium⟩)
      cfg.premium chainCalls prices cool now
  else ([], cool)

/-- Embedding of the ETH-put block of `check_user_alerts` (app.py lines
530-551): puts scan strikes below the rule strike. -/
def ethCheckUserAlertsPut (systemActive : Bool) (cfg : AlertConfig)
    (chainPuts : List (ℕ × String)) (prices : List (String × Quote))
    (cool : CoolMap) (now : ℚ) : List UserAlert × CoolMap :=
  if systemActive = false then ([], cool)
  else if cfg.is_monitoring ∧ 0 < cfg.strike ∧ 0 < cfg.premium then
    userAlertScanCore (fun strike => ethPutUserKey strike cfg.strike)
      (fun strike => decide ((strike : ℚ) < cfg.strike))
      (fun strike bid => ⟨"ETH", "put", strike, bid, cfg.strike, cfg.premium⟩)
      cfg.premium chainPuts prices cool now
  else ([], cool)

/-- Embedding of the BTC-call block of `check_user_alerts` (app.py lines
1009-1037); identical to the ETH call block up to asset and key prefix. -/
def btcCheckUserAlertsCall (systemActive : Bool) (cfg : AlertConfig)
    (chainCalls : List (ℕ × String)) (prices : List (String × Quote))
    (cool : CoolMap) (now : ℚ) : List UserAlert × CoolMap :=
  if systemActive = false then ([], cool)
  else if cfg.is_monitoring ∧ 0 < cfg.strike ∧ 0 < cfg.premium then
    userAlertScanCore (fun strike => btcCallUserKey strike cfg.strike)
      (fun strike => decide (cfg.strike < (strike : ℚ)))
      (fun strike bid => ⟨"BTC", "call", strike, bid, cfg.strike, cfg.premium⟩)
      cfg.premium chainCalls prices cool now
  else ([], cool)

/-- Embedding of the BTC-put block of `check_user_alerts` (app.py lines
1039-1060); identical to the ETH put block up to asset and key prefix. -/
def btcCheckUserAlertsPut (systemActive : Bool) (cfg : AlertConfig)
    (chainPuts : List (ℕ × String)) (prices : List (String × Quote))
    (cool : CoolMap) (now : ℚ) : List UserAlert × CoolMap :=
  if systemActive = false then ([], cool)
  else if cfg.is_monitoring ∧ 0 < cfg.strike ∧ 0 < cfg.premium then
    userAlertScanCore (fun strike => btcPutUserKey strike cfg.strike)
      (fun strike => decide ((strike : ℚ) < cfg.strike))
      (fun strike bid => ⟨"BTC", "put", strike, bid, cfg.strike, cfg.premium⟩)
      cfg.premium chainPuts prices cool now
  else ([], cool)

/-- Qualification predicate, worded from the spec: the strike passes the
side condition and its quote is present with bid at or above the premium. -/
def scanQual (cond : ℕ → Bool) (premium : ℚ)
    (prices : List (String × Quote)) (p : ℕ × String) : Bool :=
  cond p.1 &&
    match List.lookup p.2 prices with
    | some q => decide (premium ≤ q.bid)
    | none => false

/-- Alerts the spec expects from one rule's scan: one entry per qualifying
strike of the chain, in chain order, with no short-circuit. -/
def expectedAlerts (asset ty : String) (cfg : AlertConfig) (cond : ℕ → Bool)
    (prices : List (String × Quote)) (chain : List (ℕ × String)) :
    List UserAlert :=
  chain.filterMap (fun p =>
    if scanQual cond cfg.premium prices p then
      some ⟨asset, ty, p.1, ((List.lookup p.2 prices).map Quote.bid).getD 0,
        cfg.strike, cfg.premium⟩
    else none)

lemma userAlertStep_skip (mkKey : ℕ → String) (cond : ℕ → Bool)
    (mkA : ℕ → ℚ → UserAlert) (premium : ℚ) (prices : List (String × Quote))
    (now : ℚ) (acc : List UserAlert × CoolMap) (p : ℕ × String)
    (h : scanQual cond premium prices p = false) :
    userAlertStep mkKey cond mkA premium prices now acc p = acc := by
  unfold userAlertStep
  unfold scanQual at h
  by_cases hc : cond p.1
  · rw [if_pos hc]
    rw [hc] at h
    simp only [Bool.true_and] at h
    cases hl : List.lookup p.2 prices with
    | none => rfl
    | some q =>
        rw [hl] at h
        simp only [decide_eq_false_iff_not] at h
        dsimp only
        rw [if_neg h]
  · rw [if_neg hc]

lemma userAlertStep_fire (mkKey : ℕ → String) (cond : ℕ → Bool)
    (mkA : ℕ → ℚ → UserAlert) (premium : ℚ) (prices : List (String × Quote))
    (now : ℚ) (acc : List UserAlert × CoolMap) (p : ℕ × String)
    (h : scanQual cond premium prices p = true)
    (hfresh : List.lookup (mkKey p.1) acc.2 = none)
    (hnow : ALERT_COOLDOWN ≤ now) :
    userAlertStep mkKey cond mkA premium prices now acc p =
      (acc.1 ++ [mkA p.1 (((List.lookup p.2 prices).map Quote.bid).getD 0)],
        setKey acc.2 (mkKey p.1) now) := by
  unfold userAlertStep
  unfold scanQual at h
  by_cases hc : cond p.1
  · rw [if_pos hc]
    rw [hc] at h
    simp only [Bool.true_and] at h
    cases hl : List.lookup p.2 prices with
    | none => rw [hl] at h; simp at h
    | some q =>
        rw [hl] at h
        simp only [decide_eq_true_eq] at h
        dsimp only
        rw [if_pos h]
        have hca : canAlert acc.2 now (mkKey p.1) =
            (true, setKey acc.2 (mkKey p.1) now) := by
          unfold canAlert
          rw [hfresh]
          simp only [Option.getD_none, sub_zero]
          rw [if_pos hnow]
        rw [hca]
        simp
  · simp only [Bool.and_eq_true] at h
    exact absurd h.1 hc

lemma userAlertStep_snd_lookup (mkKey : ℕ → String) (cond : ℕ → Bool)
    (mkA : ℕ → ℚ → UserAlert) (premium : ℚ) (prices : List (String × Quote))
    (now : ℚ) (acc : List UserAlert × CoolMap) (p : ℕ × String) (k : String)
    (hk : mkKey p.1 ≠ k) :
    List.lookup k (userAlertStep mkKey cond mkA premium prices now acc p).2 =
      List.lookup k acc.2 := by
  unfold userAlertStep
  by_cases hc : cond p.1
  · rw [if_pos hc]
    cases hl : List.lookup p.2 prices with
    | none => rfl
    | some q =>
        dsimp only
        by_cases hb : premium ≤ q.bid
        · rw [if_pos hb]
          cases hcab : (canAlert acc.2 now (mkKey p.1)).1 with
          | false =>
              rw [canAlert_false_eq acc.2 now (mkKey p.1) hcab]
          | true =>
              rw [canAlert_true_eq acc.2 now (mkKey p.1) hcab]
              exact lookup_setKey_ne acc.2 (mkKey p.1) now k (Ne.symm hk)
        · rw [if_neg hb]
  · rw [if_neg hc]

lemma scan_preserve (mkKey : ℕ → String) (cond : ℕ → Bool)
    (mkA : ℕ → ℚ → UserAlert) (premium : ℚ) (prices : List (String × Quote))
    (now : ℚ) :
    ∀ (chain : List (ℕ × String)) (acc : List UserAlert) (cool : CoolMap)
      (k : String), (∀ p ∈ chain, mkKey p.1 ≠ k) →
      List.lookup k
        (chain.foldl (userAlertStep mkKey cond mkA premium prices now)
          (acc, cool)).2 = List.lookup k cool := by
  intro chain
  induction chain with
  | nil => intro acc cool k _; rfl
  | cons p rest ih =>
      intro acc cool k hk
      have hkp : mkKey p.1 ≠ k := hk p (List.mem_cons_self p rest)
      have hkr : ∀ q ∈ rest, mkKey q.1 ≠ k :=
        fun q hq => hk q (List.mem_cons_of_mem p hq)
      rw [List.foldl_cons]
      have h1 := ih (userAlertStep mkKey cond mkA premium prices now (acc, cool) p).1
        (userAlertStep mkKey cond mkA premium prices now (acc, cool) p).2 k hkr
      rw [Prod.mk.eta] at h1
      rw [h1]
      exact userAlertStep_snd_lookup mkKey cond mkA premium prices now (acc, cool) p k hkp

lemma scanCore_spec (mkKey : ℕ → String) (cond : ℕ → Bool)
    (mkA : ℕ → ℚ → UserAlert) (premium now : ℚ) (prices : List (String × Quote))
    (hnow : ALERT_COOLDOWN ≤ now) :
    ∀ (chain : List (ℕ × String)) (acc : List UserAlert) (cool : CoolMap),
      (chain.map (fun p => mkKey p.1)).Nodup →
      (∀ p ∈ chain, List.lookup (mkKey p.1) cool = none) →
      (chain.foldl (userAlertStep mkKey cond mkA premium prices now)
          (acc, cool)).1
        = acc ++ chain.filterMap (fun p =>
            if scanQual cond premium prices p then
              some (mkA p.1 (((List.lookup p.2 prices).map Quote.bid).getD 0))
            else none) ∧
      (∀ p ∈ chain, scanQual cond premium prices p = true →
        List.lookup (mkKey p.1)
          (chain.foldl (userAlertStep mkKey cond mkA premium prices now)
            (acc, cool)).2 = some now) := by
  intro chain
  induction chain with
  | nil =>
      intro acc cool _ _
      exact ⟨by simp, by simp⟩
  | cons p rest ih =>
      intro acc cool hnd hfresh
      have hnd' : (mkKey p.1 :: rest.map (fun q => mkKey q.1)).Nodup := by
        simpa using hnd
      have hnotmem : mkKey p.1 ∉ rest.map (fun q => mkKey q.1) :=
        (List.nodup_cons.mp hnd').1
      have hndr : (rest.map (fun q => mkKey q.1)).Nodup :=
        (List.nodup_cons.mp hnd').2
      have hkeyne : ∀ q ∈ rest, mkKey q.1 ≠ mkKey p.1 := by
        intro q hq heq
        exact hnotmem (heq ▸ List.mem_map_of_mem (fun r => mkKey r.1) hq)
      have hfreshp : List.lookup (mkKey p.1) cool = none :=
        hfresh p (List.mem_cons_self p rest)
      have hfreshr : ∀ q ∈ rest, List.lookup (mkKey q.1) cool = none :=
        fun q hq => hfresh q (List.mem_cons_of_mem p hq)
      by_cases hq : scanQual cond premium prices p = true
      · -- the head strike qualifies and fires
        have hstep := userAlertStep_fire mkKey cond mkA premium prices now
          (acc, cool) p hq hfreshp hnow
        have hfresh2 : ∀ q ∈ rest,
            List.lookup (mkKey q.1) (setKey cool (mkKey p.1) now) = none := by
          intro q hqr
          rw [lookup_setKey_ne cool (mkKey p.1) now (mkKey q.1) (hkeyne q hqr)]
          exact hfreshr q hqr
        have hih := ih (acc ++ [mkA p.1 (((List.lookup p.2 prices).map Quote.bid).getD 0)])
          (setKey cool (mkKey p.1) now) hndr hfresh2
        constructor
        · rw [List.foldl_cons, hstep]
          dsimp only
          rw [hih.1]
          simp [List.filterMap_cons, hq]
        · intro q hqmem hqual
          rcases List.mem_cons.mp hqmem with hqp | hqr
          · subst hqp
            rw [List.foldl_cons, hstep]
            dsimp only
            rw [scan_preserve mkKey cond mkA premium prices now rest _ _ _
              (fun r hr => hkeyne r hr)]
            exact lookup_setKey_self cool (mkKey q.1) now
          · rw [List.foldl_cons, hstep]
            dsimp only
            exact hih.2 q hqr hqual
      · -- the head strike does not qualify: the step is a no-op
        have hqf : scanQual cond premium prices p = false :=
          Bool.eq_false_iff.mpr hq
        have hstep := userAlertStep_skip mkKey cond mkA premium prices now
          (acc, cool) p hqf
        have hih := ih acc cool hndr hfreshr
        constructor
        · rw [List.foldl_cons, hstep, hih.1]
          simp [List.filterMap_cons, hqf]
        · intro q hqmem hqual
          rcases List.mem_cons.mp hqmem with hqp | hqr
          · subst hqp
            exact absurd hqual hq
          · rw [List.foldl_cons, hstep]
            exact hih.2 q hqr hqual

/-- C6: for an enabled rule (monitoring, positive strike and premium) with
the alert system active, each of the four `check_user_alerts` blocks scans
its whole chain side: starting from a fresh cooldown map it emits exactly
one alert per strike satisfying the side condition (call: strike above the
rule strike, put: below) whose quote is present with bid at or above the
premium — all qualifying strikes, in chain order, with no first-match
short-circuit — and records each hit under the key built from the asset,
side, triggering strike and rule strike. -/
theorem threshold_rule_scan_contract (cfg : AlertConfig)
    (chainC chainP : List (ℕ × String)) (prices : List (String × Quote))
    (now : ℚ)
    (hm : cfg.is_monitoring = true) (hs : 0 < cfg.strike)
    (hp : 0 < cfg.premium) (hnow : ALERT_COOLDOWN ≤ now)
    (hnd1 : (chainC.map (fun p => ethCallUserKey p.1 cfg.strike)).Nodup)
    (hnd2 : (chainP.map (fun p => ethPutUserKey p.1 cfg.strike)).Nodup)
    (hnd3 : (chainC.map (fun p => btcCallUserKey p.1 cfg.strike)).Nodup)
    (hnd4 : (chainP.map (fun p => btcPutUserKey p.1 cfg.strike)).Nodup) :
    ((ethCheckUserAlertsCall true cfg chainC prices [] now).1
        = expectedAlerts "ETH" "call" cfg (fun s => decide (cfg.strike < (s : ℚ)))
            prices chainC ∧
      ∀ p ∈ chainC,
        scanQual (fun s => decide (cfg.strike < (s : ℚ))) cfg.premium prices p = true →
        List.lookup (ethCallUserKey p.1 cfg.strike)
          (ethCheckUserAlertsCall true cfg chainC prices [] now).2 = some now) ∧
    ((ethCheckUserAlertsPut true cfg chainP prices [] now).1
        = expectedAlerts "ETH" "put" cfg (fun s => decide ((s : ℚ) < cfg.strike))
            prices chainP ∧
      ∀ p ∈ chainP,
        scanQual (fun s => decide ((s : ℚ) < cfg.strike)) cfg.premium prices p = true →
        List.lookup (ethPutUserKey p.1 cfg.strike)
          (ethCheckUserAlertsPut true cfg chainP prices [] now).2 = some now) ∧
    ((btcCheckUserAlertsCall true cfg chainC prices [] now).1
        = expectedAlerts "BTC" "call" cfg (fun s => decide (cfg.strike < (s : ℚ)))
            prices chainC ∧
      ∀ p ∈ chainC,
        scanQual (fun s => decide (cfg.strike < (s : ℚ))) cfg.premium prices p = true →
        List.lookup (btcCallUserKey p.1 cfg.strike)
          (btcCheckUserAlertsCall true cfg chainC prices [] now).2 = some now) ∧
    ((btcCheckUserAlertsPut true cfg chainP prices [] now).1
        = expectedAlerts "BTC" "put" cfg (fun s => decide ((s : ℚ) < cfg.strike))
            prices chainP ∧
      ∀ p ∈ chainP,
        scanQual (fun s => decide ((s : ℚ) < cfg.strike)) cfg.premium prices p = true →
        List.lookup (btcPutUserKey p.1 cfg.strike)
          (btcCheckUserAlertsPut true cfg chainP prices [] now).2 = some now) := by
  have hguard : cfg.is_monitoring ∧ 0 < cfg.strike ∧ 0 < cfg.premium := ⟨hm, hs, hp⟩
  refine ⟨?_, ?_, ?_, ?_⟩
  · have hwrap : ethCheckUserAlertsCall true cfg chainC prices [] now
        = userAlertScanCore (fun s => ethCallUserKey s cfg.strike)
            (fun s => decide (cfg.strike < (s : ℚ)))
            (fun s b => ⟨"ETH", "call", s, b, cfg.strike, cfg.premium⟩)
            cfg.premium chainC prices [] now := by
      unfold ethCheckUserAlertsCall
      rw [if_neg (by simp), if_pos hguard]
    have h := scanCore_spec (fun s => ethCallUserKey s cfg.strike)
      (fun s => decide (cfg.strike < (s : ℚ)))
      (fun s b => ⟨"ETH", "call", s, b, cfg.strike, cfg.premium⟩)
      cfg.premium now prices hnow chainC [] [] hnd1 (fun _ _ => rfl)
    refine ⟨?_, ?_⟩
    · rw [hwrap]
      exact h.1.trans (by simp [expectedAlerts])
    · intro p hpmem hq
      rw [hwrap]
      exact h.2 p hpmem hq
  · have hwrap : ethCheckUserAlertsPut true cfg chainP prices [] now
        = userAlertScanCore (fun s => ethPutUserKey s cfg.strike)
            (fun s => decide ((s : ℚ) < cfg.strike))
            (fun s b => ⟨"ETH", "put", s, b, cfg.strike, cfg.premium⟩)
            cfg.premium chainP prices [] now := by
      unfold ethCheckUserAlertsPut
      rw [if_neg (by simp), if_pos hguard]
    have h := scanCore_spec (fun s => ethPutUserKey s cfg.strike)
      (fun s => decide ((s : ℚ) < cfg.strike))
      (fun s b => ⟨"ETH", "put", s, b, cfg.strike, cfg.premium⟩)
      cfg.premium now prices hnow chainP [] [] hnd2 (fun _ _ => rfl)
    refine ⟨?_, ?_⟩
    · rw [hwrap]
      exact h.1.trans (by simp [expectedAlerts])
    · intro p hpmem hq
      rw [hwrap]
      exact h.2 p hpmem hq
  · have hwrap : btcCheckUserAlertsCall true cfg chainC prices [] now
        = userAlertScanCore (fun s => btcCallUserKey s cfg.strike)
            (fun s => decide (cfg.strike < (s : ℚ)))
            (fun s b => ⟨"BTC", "call", s, b, cfg.strike, cfg.premium⟩)
            cfg.premium chainC prices [] now := by
      unfold btcCheckUserAlertsCall
      rw [if_neg (by simp), if_pos hguard]
    have h := scanCore_spec (fun s => btcCallUserKey s cfg.strike)
      (fun s => decide (cfg.strike < (s : ℚ)))
      (fun s b => ⟨"BTC", "call", s, b, cfg.strike, cfg.premium⟩)
      cfg.premium now prices hnow chainC [] [] hnd3 (fun _ _ => rfl)
    refine ⟨?_, ?_⟩
    · rw [hwrap]
      exact h.1.trans (by simp [expectedAlerts])
    · intro p hpmem hq
      rw [hwrap]
      exact h.2 p hpmem hq
  · have hwrap : btcCheckUserAlertsPut true cfg chainP prices [] now
        = userAlertScanCore (fun s => btcPutUserKey s cfg.strike)
            (fun s => decide ((s : ℚ) < cfg.strike))
            (fun s b => ⟨"BTC", "put", s, b, cfg.strike, cfg.premium⟩)
            cfg.premium chainP prices [] now := by
      unfold btcCheckUserAlertsPut
      rw [if_neg (by simp), if_pos hguard]
    have h := scanCore_spec (fun s => btcPutUserKey s cfg.strike)
      (fun s => decide ((s : ℚ) < cfg.strike))
      (fun s b => ⟨"BTC", "put", s, b, cfg.strike, cfg.premium⟩)
      cfg.premium now prices hnow chainP [] [] hnd4 (fun _ _ => rfl)
    refine ⟨?_, ?_⟩
    · rw [hwrap]
      exact h.1.trans (by simp [expectedAlerts])
    · intro p hpmem hq
      rw [hwrap]
      exact h.2 p hpmem hq

/-- A concrete enabled rule used to witness the threshold-scan contract:
strike 2000, premium 5, monitoring. -/
def cfgW : AlertConfig := ⟨2000, 5, true, "", ""⟩

/-- Concrete call chain for the witness: strikes 2100 and 2200. -/
def chainCW : List (ℕ × String) :=
  [(2100, "C-ETH-2100-010126"), (2200, "C-ETH-2200-010126")]

/-- Concrete put chain for the witness: strike 1900. -/
def chainPW : List (ℕ × String) := [(1900, "P-ETH-1900-010126")]

/-- Concrete snapshot for the witness: 2100 bids 6 (qualifies), 2200 bids 4
(below premium), 1900 bids 6 (qualifies on the put side). -/
def pricesW : List (String × Quote) :=
  [("C-ETH-2100-010126", ⟨6, 7⟩), ("C-ETH-2200-010126", ⟨4, 5⟩),
   ("P-ETH-1900-010126", ⟨6, 7⟩)]

/-- Witness for `threshold_rule_scan_contract` at the concrete rule, chains
and snapshot above, at time 100. -/
theorem threshold_rule_scan_contract_witness :
    (cfgW.is_monitoring = true ∧ 0 < cfgW.strike ∧ 0 < cfgW.premium ∧
      ALERT_COOLDOWN ≤ (100 : ℚ) ∧
      (chainCW.map (fun p => ethCallUserKey p.1 cfgW.strike)).Nodup ∧
      (chainPW.map (fun p => ethPutUserKey p.1 cfgW.strike)).Nodup ∧
      (chainCW.map (fun p => btcCallUserKey p.1 cfgW.strike)).Nodup ∧
      (chainPW.map (fun p => btcPutUserKey p.1 cfgW.strike)).Nodup) ∧
    (((ethCheckUserAlertsCall true cfgW chainCW pricesW [] 100).1
        = expectedAlerts "ETH" "call" cfgW (fun s => decide (cfgW.strike < (s : ℚ)))
            pricesW chainCW ∧
      ∀ p ∈ chainCW,
        scanQual (fun s => decide (cfgW.strike < (s : ℚ))) cfgW.premium pricesW p = true →
        List.lookup (ethCallUserKey p.1 cfgW.strike)
          (ethCheckUserAlertsCall true cfgW chainCW pricesW [] 100).2 = some 100) ∧
    ((ethCheckUserAlertsPut true cfgW chainPW pricesW [] 100).1
        = expectedAlerts "ETH" "put" cfgW (fun s => decide ((s : ℚ) < cfgW.strike))
            pricesW chainPW ∧
      ∀ p ∈ chainPW,
        scanQual (fun s => decide ((s : ℚ) < cfgW.strike)) cfgW.premium pricesW p = true →
        List.lookup (ethPutUserKey p.1 cfgW.strike)
          (ethCheckUserAlertsPut true cfgW chainPW pricesW [] 100).2 = some 100) ∧
    ((btcCheckUserAlertsCall true cfgW chainCW pricesW [] 100).1
        = expectedAlerts "BTC" "call" cfgW (fun s => decide (cfgW.strike < (s : ℚ)))
            pricesW chainCW ∧
      ∀ p ∈ chainCW,
        scanQual (fun s => decide (cfgW.strike < (s : ℚ))) cfgW.premium pricesW p = true →
        List.lookup (btcCallUserKey p.1 cfgW.strike)
          (btcCheckUserAlertsCall true cfgW chainCW pricesW [] 100).2 = some 100) ∧
    ((btcCheckUserAlertsPut true cfgW chainPW pricesW [] 100).1
        = expectedAlerts "BTC" "put" cfgW (fun s => decide ((s : ℚ) < cfgW.strike))
            pricesW chainPW ∧
      ∀ p ∈ chainPW,
        scanQual (fun s => decide ((s : ℚ) < cfgW.strike)) cfgW.premium pricesW p = true →
        List.lookup (btcPutUserKey p.1 cfgW.strike)
          (btcCheckUserAlertsPut true cfgW chainPW pricesW [] 100).2 = some 100)) :=
  ⟨⟨rfl, by norm_num [cfgW], by norm_num [cfgW], by norm_num [ALERT_COOLDOWN],
    by decide, by decide, by decide, by decide⟩,
   threshold_rule_scan_contract cfgW chainCW chainPW pricesW 100 rfl
     (by norm_num [cfgW]) (by norm_num [cfgW]) (by norm_num [ALERT_COOLDOWN])
     (by decide) (by decide) (by decide) (by decide)⟩

/-- Embedding of `get_next_available_expiry` (app.py lines 253-265 and
788-800; identical bodies): on an empty listing return the current expiry
unchanged; otherwise return the first listed expiry with `expiry >
current_expiry` (expiry codes are compared as strings, exactly as Python
does), falling back to the last listed one. -/
def getNextAvailableExpiry (availableExpiries : List String)
    (currentExpiry : String) : String :=
  if availableExpiries.isEmpty then currentExpiry
  else
    match availableExpiries.find? (fun expiry => decide (currentExpiry < expiry)) with
    | some expiry => expiry
    | none => availableExpiries.getLastD currentExpiry

lemma find?_gt_spec (cur : String) :
    ∀ (avail : List String), List.Sorted (· < ·) avail →
      ∀ e, avail.find? (fun x => decide (cur < x)) = some e →
        e ∈ avail ∧ cur < e ∧ ∀ x ∈ avail, cur < x → e ≤ x := by
  intro avail
  induction avail with
  | nil => intro _ e h; simp at h
  | cons a rest ih =>
      intro hs e h
      by_cases ha : cur < a
      · rw [List.find?_cons_of_pos rest (by simpa using ha)] at h
        injection h with he
        subst he
        refine ⟨List.mem_cons_self a rest, ha, ?_⟩
        intro x hx _
        rcases List.mem_cons.mp hx with hxa | hx'
        · exact le_of_eq hxa.symm
        · exact ((List.sorted_cons.mp hs).1 x hx').le
      · rw [List.find?_cons_of_neg rest (by simpa using ha)] at h
        obtain ⟨hmem, hlt, hmin⟩ := ih (List.sorted_cons.mp hs).2 e h
        refine ⟨List.mem_cons_of_mem a hmem, hlt, ?_⟩
        intro x hx hcx
        rcases List.mem_cons.mp hx with hxa | hx'
        · rw [hxa] at hcx
          exact absurd hcx ha
        · exact hmin x hx' hcx

lemma getLastD_mem : ∀ (l : List String) (a d : String),
    (a :: l).getLastD d ∈ a :: l := by
  intro l
  induction l with
  | nil => intro a d; simp [List.getLastD]
  | cons b rest ih =>
      intro a d
      rw [List.getLastD_cons]
      exact List.mem_cons_of_mem a (ih b a)

lemma sorted_le_getLastD : ∀ (l : List String) (a d : String),
    List.Sorted (· < ·) (a :: l) → ∀ x ∈ a :: l, x ≤ (a :: l).getLastD d := by
  intro l
  induction l with
  | nil =>
      intro a d _ x hx
      simp only [List.mem_singleton] at hx
      subst hx
      simp [List.getLastD]
  | cons b rest ih =>
      intro a d hs x hx
      rw [List.getLastD_cons]
      rcases List.mem_cons.mp hx with hxa | hx'
      · have hab : a < b := (List.sorted_cons.mp hs).1 b (List.mem_cons_self b rest)
        have hble := ih b a (List.sorted_cons.mp hs).2 b (List.mem_cons_self b rest)
        rw [hxa]
        exact le_trans hab.le hble
      · exact ih b a (List.sorted_cons.mp hs).2 x hx'

/-- C7: on a non-empty sorted listing, `get_next_available_expiry` returns a
listed expiry; when some listed expiry is strictly greater than the current
one it returns the smallest such; when none is greater it returns the
largest listed expiry — it never skips past the last available contract. -/
theorem next_expiry_selection (avail : List String) (cur : String)
    (hne : avail ≠ []) (hsorted : List.Sorted (· < ·) avail) :
    getNextAvailableExpiry avail cur ∈ avail ∧
    ((∃ e ∈ avail, cur < e) →
      cur < getNextAvailableExpiry avail cur ∧
      ∀ e ∈ avail, cur < e → getNextAvailableExpiry avail cur ≤ e) ∧
    ((∀ e ∈ avail, ¬cur < e) →
      ∀ e ∈ avail, e ≤ getNextAvailableExpiry avail cur) := by
  obtain ⟨a, rest, rfl⟩ := List.exists_cons_of_ne_nil hne
  unfold getNextAvailableExpiry
  rw [if_neg (by simp)]
  cases hf : (a :: rest).find? (fun x => decide (cur < x)) with
  | some e =>
      obtain ⟨hmem, hlt, hmin⟩ := find?_gt_spec cur (a :: rest) hsorted e hf
      exact ⟨hmem, fun _ => ⟨hlt, hmin⟩,
        fun hnone => absurd hlt (hnone e hmem)⟩
  | none =>
      have hnogt := List.find?_eq_none.mp hf
      refine ⟨getLastD_mem rest a cur, ?_, ?_⟩
      · rintro ⟨e, he, hlt⟩
        exact absurd (by simpa using hnogt e he) (not_not.mpr hlt)
      · intro _ x hx
        exact sorted_le_getLastD rest a cur hsorted x hx

lemma expiryListSortedW :
    List.Sorted (· < ·) (["010126", "020126"] : List String) := by
  rw [List.sorted_cons]
  constructor
  · intro b hb
    simp only [List.mem_singleton] at hb
    subst hb
    rw [String.lt_iff_toList_lt]
    decide
  · simp

/-- Witness for `next_expiry_selection` on the listing
`["010126", "020126"]` with current expiry `"010126"`. -/
theorem next_expiry_selection_witness :
    (["010126", "020126"] : List String) ≠ [] ∧
    List.Sorted (· < ·) (["010126", "020126"] : List String) ∧
    (getNextAvailableExpiry ["010126", "020126"] "010126" ∈
        (["010126", "020126"] : List String) ∧
    ((∃ e ∈ (["010126", "020126"] : List String), "010126" < e) →
      "010126" < getNextAvailableExpiry ["010126", "020126"] "010126" ∧
      ∀ e ∈ (["010126", "020126"] : List String), "010126" < e →
        getNextAvailableExpiry ["010126", "020126"] "010126" ≤ e) ∧
    ((∀ e ∈ (["010126", "020126"] : List String), ¬"010126" < e) →
      ∀ e ∈ (["010126", "020126"] : List String),
        e ≤ getNextAvailableExpiry ["010126", "020126"] "010126")) :=
  ⟨by simp, expiryListSortedW,
   next_expiry_selection ["010126", "020126"] "010126" (by simp) expiryListSortedW⟩

/-- Per-bot mutable state touched by `check_and_update_expiry`: the active
expiry, the options-price snapshot, the active symbol list, the two-sided
option chain, the rollover counter and the pacing stamp (app.py lines
180-195 and 714-728). -/
structure BotState where
  active_expiry : String
  options_prices : List (String × Quote)
  active_symbols : List String
  chain_calls : List (ℕ × String)
  chain_puts : List (ℕ × String)
  expiry_rollover_count : ℕ
  last_expiry_check : ℚ
deriving DecidableEq, Repr

/-- The global `alert_configs` dict with its four fixed keys (app.py lines
41-46). -/
structure AlertConfigs where
  btc_call : AlertConfig
  btc_put : AlertConfig
  eth_call : AlertConfig
  eth_put : AlertConfig
deriving DecidableEq, Repr

/-- One iteration of the repointing loop (app.py lines 293-295, 319-321,
828-830, 851-853): only a monitoring config has its `active_expiry`
repointed. -/
def repointConfig (c : AlertConfig) (newExpiry : String) : AlertConfig :=
  if c.is_monitoring then { c with active_expiry := newExpiry } else c

/-- The full repointing loop over the four configs. -/
def repointConfigs (cs : AlertConfigs) (newExpiry : String) : AlertConfigs :=
  ⟨repointConfig cs.btc_call newExpiry, repointConfig cs.btc_put newExpiry,
   repointConfig cs.eth_call newExpiry, repointConfig cs.eth_put newExpiry⟩

/-- One instrument row of the directory response consumed by
`get_all_options_symbols` (app.py lines 366-389): its symbol and contract
type. -/
structure Product where
  symbol : String
  contract_type : String
deriving DecidableEq, Repr

/-- Python `sorted(list(set(xs)))` on symbol strings (app.py line 395). -/
def sortedStrings (xs : List String) : List String :=
  List.insertionSort (· ≤ ·) xs.dedup

/-- Python `dict(sorted(d.items()))` on a strike-keyed chain dict (app.py
lines 392-393). -/
def sortChain (xs : List (ℕ × String)) : List (ℕ × String) :=
  List.insertionSort (fun a b => a.1 ≤ b.1) xs

/-- Collection loop of `get_all_options_symbols` (app.py lines 369-389):
starting from a cleared chain, every product whose contract type is an
option, whose symbol contains `"ETH"` and contains the active expiry has
its symbol appended and, when its extracted strike is positive, is filed
under the call chain for `call_options` and the put chain otherwise. -/
def ethCollectSymbols (products : List Product) (activeExpiry : String) :
    List String × List (ℕ × String) × List (ℕ × String) :=
  products.foldl
    (fun acc product =>
      if (product.contract_type = "call_options" ∨
            product.contract_type = "put_options") ∧
          strOccurs "ETH" product.symbol = true ∧
          strOccurs activeExpiry product.symbol = true then
        let symbols := acc.1 ++ [product.symbol]
        let strike := extractStrike product.symbol
        if 0 < strike then
          if product.contract_type = "call_options" then
            (symbols, setAssoc acc.2.1 strike product.symbol, acc.2.2)
          else
            (symbols, acc.2.1, setAssoc acc.2.2 strike product.symbol)
        else (symbols, acc.2.1, acc.2.2)
      else acc)
    ([], [], [])

/-- The recursion of `get_all_options_symbols` (app.py lines 352-418) under
a fixed per-tick directory environment (`products` for the instrument
fetch, `avail` for the expiry listing): collect and sort the active
expiry's symbols and chains; when no symbol was found and the listing is
non-empty, resolve the next expiry and — when it differs — mutate the
active expiry and recurse (the auto-switch of lines 400-409).  Returns the
final active expiry together with the innermost level's symbols and
chains.  Under a fixed environment the source recursion makes at most one
fallback step and otherwise strictly ascends the listing, so the
`avail.length + 1` levels of fuel the caller passes always cover it; the
fuel-0 arm mirrors the source's error return of an empty symbol list with
no further mutation. -/
def ethGetAllOptionsSymbols (products : List Product) (avail : List String) :
    ℕ → String → String × List String × List (ℕ × String) × List (ℕ × String)
  | 0, activeExpiry => (activeExpiry, [], [], [])
  | fuel + 1, activeExpiry =>
      let collected := ethCollectSymbols products activeExpiry
      let symbols := sortedStrings collected.1
      let calls := sortChain collected.2.1
      let puts := sortChain collected.2.2
      if symbols.isEmpty then
        if avail.isEmpty = false then
          let next_expiry := getNextAvailableExpiry avail activeExpiry
          if next_expiry ≠ activeExpiry then
            ethGetAllOptionsSymbols products avail fuel next_expiry
          else (activeExpiry, symbols, calls, puts)
        else (activeExpiry, symbols, calls, puts)
      else (activeExpiry, symbols, calls, puts)

/-- Embedding of `subscribe_to_options` (app.py lines 643-670): run
`get_all_options_symbols` — which rewrites the option chain and possibly
the active expiry itself through the auto-switch — and return early when
it found no symbols, leaving `active_symbols` at its previous
(just-cleared) value; otherwise install the fetched symbol list. -/
def ethSubscribeToOptions (st : BotState) (products : List Product)
    (avail : List String) : BotState :=
  let r := ethGetAllOptionsSymbols products avail (avail.length + 1)
    st.active_expiry
  let st := { st with active_expiry := r.1, chain_calls := r.2.2.1,
                      chain_puts := r.2.2.2 }
  if r.2.1.isEmpty then st else { st with active_symbols := r.2.1 }

/-- The shared atomic-transition body of both `check_and_update_expiry`
branches (app.py lines 283-295 and 309-321, 818-830 and 841-853): set the
new active expiry, bump the rollover counter, clear the snapshot, the
symbol list and both chain sides, and repoint monitoring configs. -/
def clearAndRepoint (st : BotState) (cfgs : AlertConfigs) (newExpiry : String) :
    BotState × AlertConfigs :=
  ({ st with active_expiry := newExpiry,
             expiry_rollover_count := st.expiry_rollover_count + 1,
             options_prices := [],
             active_symbols := [],
             chain_calls := [],
             chain_puts := [] },
   repointConfigs cfgs newExpiry)

/-- The ETH daily-rollover branch (app.py lines 276-303): when the cutover
check yields a candidate differing from the active expiry, resolve the
actual next expiry from the live listing; if it differs, run the atomic
transition and, when connected, resubscribe. -/
def ethTryRollover (st : BotState) (cfgs : AlertConfigs)
    (rollCandidate : Option String) (avail : List String)
    (connected : Bool) (products : List Product) :
    Option (BotState × AlertConfigs) :=
  match rollCandidate with
  | some next_expiry =>
      if next_expiry ≠ st.active_expiry then
        let actual_next_expiry := getNextAvailableExpiry avail st.active_expiry
        if actual_next_expiry ≠ st.active_expiry then
          let r := clearAndRepoint st cfgs actual_next_expiry
          some (if connected then ethSubscribeToOptions r.1 products avail
            else r.1, r.2)
        else none
      else none
  | none => none

/-- The ETH delisting branch (app.py lines 305-327): when the listing is
non-empty and no longer contains the active expiry, move to the resolved
next expiry with the same atomic transition. -/
def ethTryDelist (st : BotState) (cfgs : AlertConfigs) (avail : List String)
    (connected : Bool) (products : List Product) :
    Option (BotState × AlertConfigs) :=
  if avail ≠ [] ∧ st.active_expiry ∉ avail then
    let next_available := getNextAvailableExpiry avail st.active_expiry
    if next_available ≠ st.active_expiry then
      let r := clearAndRepoint st cfgs next_available
      some (if connected then ethSubscribeToOptions r.1 products avail
        else r.1, r.2)
    else none
  else none

/-- Embedding of the ETH `check_and_update_expiry` (app.py lines 267-329):
paced by `EXPIRY_CHECK_INTERVAL`; the rollover branch runs first and
returns on success, then the delisting branch; otherwise nothing changes
except the pacing stamp.  The live-expiry listing fetched by the two
branches is the single `avail` parameter. -/
def ethCheckAndUpdateExpiry (st : BotState) (cfgs : AlertConfigs) (now : ℚ)
    (rollCandidate : Option String) (avail : List String)
    (connected : Bool) (products : List Product) :
    BotState × AlertConfigs × Bool :=
  if EXPIRY_CHECK_INTERVAL ≤ now - st.last_expiry_check then
    let st := { st with last_expiry_check := now }
    match ethTryRollover st cfgs rollCandidate avail connected products with
    | some (st', cfgs') => (st', cfgs', true)
    | none =>
        match ethTryDelist st cfgs avail connected products with
        | some (st', cfgs') => (st', cfgs', true)
        | none => (st, cfgs, false)
  else (st, cfgs, false)

/-- The BTC daily-rollover branch (app.py lines 811-835): identical to the
ETH one except that the REST bot has no subscription to refresh. -/
def btcTryRollover (st : BotState) (cfgs : AlertConfigs)
    (rollCandidate : Option String) (avail : List String) :
    Option (BotState × AlertConfigs) :=
  match rollCandidate with
  | some next_expiry =>
      if next_expiry ≠ st.active_expiry then
        let actual_next_expiry := getNextAvailableExpiry avail st.active_expiry
        if actual_next_expiry ≠ st.active_expiry then
          some (clearAndRepoint st cfgs actual_next_expiry)
        else none
      else none
  | none => none

/-- The BTC delisting branch (app.py lines 837-856). -/
def btcTryDelist (st : BotState) (cfgs : AlertConfigs) (avail : List String) :
    Option (BotState × AlertConfigs) :=
  if avail ≠ [] ∧ st.active_expiry ∉ avail then
    let next_available := getNextAvailableExpiry avail st.active_expiry
    if next_available ≠ st.active_expiry then
      some (clearAndRepoint st cfgs next_available)
    else none
  else none

/-- Embedding of the BTC `check_and_update_expiry` (app.py lines 802-858). -/
def btcCheckAndUpdateExpiry (st : BotState) (cfgs : AlertConfigs) (now : ℚ)
    (rollCandidate : Option String) (avail : List String) :
    BotState × AlertConfigs × Bool :=
  if EXPIRY_CHECK_INTERVAL ≤ now - st.last_expiry_check then
    let st := { st with last_expiry_check := now }
    match btcTryRollover st cfgs rollCandidate avail with
    | some (st', cfgs') => (st', cfgs', true)
    | none =>
        match btcTryDelist st cfgs avail with
        | some (st', cfgs') => (st', cfgs', true)
        | none => (st, cfgs, false)
  else (st, cfgs, false)

lemma sortedStrings_eq_nil_iff (l : List String) :
    sortedStrings l = [] ↔ l = [] := by
  unfold sortedStrings
  constructor
  · intro h
    have hlen := (List.perm_insertionSort (· ≤ ·) l.dedup).length_eq
    rw [h] at hlen
    simp only [List.length_nil] at hlen
    exact (List.dedup_eq_nil l).mp (List.length_eq_zero.mp hlen.symm)
  · intro h
    subst h
    rfl

lemma ethSubscribeToOptions_options_prices (st : BotState)
    (products : List Product) (avail : List String) :
    (ethSubscribeToOptions st products avail).options_prices
      = st.options_prices := by
  unfold ethSubscribeToOptions
  dsimp only
  split <;> rfl

lemma ethGetAll_first_nonempty (products : List Product) (avail : List String)
    (fuel : ℕ) (a : String)
    (h : (ethCollectSymbols products a).1 ≠ []) :
    ethGetAllOptionsSymbols products avail (fuel + 1) a
      = (a, sortedStrings (ethCollectSymbols products a).1,
         sortChain (ethCollectSymbols products a).2.1,
         sortChain (ethCollectSymbols products a).2.2) := by
  have hN : sortedStrings (ethCollectSymbols products a).1 ≠ [] :=
    fun hnil => h ((sortedStrings_eq_nil_iff _).mp hnil)
  have hne : ¬ (sortedStrings (ethCollectSymbols products a).1).isEmpty
      = true := by
    cases hS : sortedStrings (ethCollectSymbols products a).1 with
    | nil => exact absurd hS hN
    | cons x t => simp
  unfold ethGetAllOptionsSymbols
  dsimp only
  exact if_neg hne

lemma ethSubscribe_no_switch (st : BotState) (products : List Product)
    (avail : List String)
    (h : (ethCollectSymbols products st.active_expiry).1 ≠ []) :
    (ethSubscribeToOptions st products avail).active_expiry
      = st.active_expiry ∧
    (ethSubscribeToOptions st products avail).active_symbols ≠ [] := by
  have hN : sortedStrings (ethCollectSymbols products st.active_expiry).1
      ≠ [] :=
    fun hnil => h ((sortedStrings_eq_nil_iff _).mp hnil)
  have hne : ¬ (sortedStrings (ethCollectSymbols products
      st.active_expiry).1).isEmpty = true := by
    cases hS : sortedStrings (ethCollectSymbols products st.active_expiry).1 with
    | nil => exact absurd hS hN
    | cons x t => simp
  unfold ethSubscribeToOptions
  dsimp only
  rw [ethGetAll_first_nonempty products avail avail.length st.active_expiry h]
  dsimp only
  rw [if_neg hne]
  exact ⟨rfl, hN⟩

lemma ethTryRollover_some_spec (st : BotState) (cfgs : AlertConfigs)
    (rc : Option String) (avail : List String) (connected : Bool)
    (products : List Product) (st' : BotState) (cfgs' : AlertConfigs)
    (h : ethTryRollover st cfgs rc avail connected products
        = some (st', cfgs')) :
    getNextAvailableExpiry avail st.active_expiry ≠ st.active_expiry ∧
    st'.options_prices = [] ∧
    cfgs' = repointConfigs cfgs (getNextAvailableExpiry avail st.active_expiry) ∧
    (connected = false →
      st'.active_expiry = getNextAvailableExpiry avail st.active_expiry ∧
      st'.active_symbols = [] ∧ st'.chain_calls = [] ∧ st'.chain_puts = [] ∧
      cfgs' = repointConfigs cfgs st'.active_expiry) ∧
    (connected = true →
      (ethCollectSymbols products
          (getNextAvailableExpiry avail st.active_expiry)).1 ≠ [] →
      st'.active_expiry = getNextAvailableExpiry avail st.active_expiry ∧
      st'.active_symbols ≠ [] ∧
      cfgs' = repointConfigs cfgs st'.active_expiry) := by
  cases rc with
  | none => simp [ethTryRollover] at h
  | some nxt =>
      unfold ethTryRollover at h
      dsimp only at h
      by_cases h1 : nxt ≠ st.active_expiry
      · rw [if_pos h1] at h
        by_cases h2 : getNextAvailableExpiry avail st.active_expiry ≠ st.active_expiry
        · rw [if_pos h2] at h
          injection h with hpair
          have hst : st' = (if connected then ethSubscribeToOptions
              (clearAndRepoint st cfgs
                (getNextAvailableExpiry avail st.active_expiry)).1
              products avail
              else (clearAndRepoint st cfgs
                (getNextAvailableExpiry avail st.active_expiry)).1) :=
            (congrArg Prod.fst hpair).symm
          have hcf : cfgs' = (clearAndRepoint st cfgs
              (getNextAvailableExpiry avail st.active_expiry)).2 :=
            (congrArg Prod.snd hpair).symm
          subst hst
          subst hcf
          cases connected with
          | false =>
              refine ⟨h2, rfl, rfl, ?_, ?_⟩
              · intro _
                exact ⟨rfl, rfl, rfl, rfl, rfl⟩
              · intro hc
                cases hc
          | true =>
              refine ⟨h2, ?_, rfl, ?_, ?_⟩
              · show (ethSubscribeToOptions (clearAndRepoint st cfgs
                    (getNextAvailableExpiry avail st.active_expiry)).1
                    products avail).options_prices = []
                rw [ethSubscribeToOptions_options_prices]
                rfl
              · intro hc
                cases hc
              · intro _ hne
                have hspec := ethSubscribe_no_switch
                  (clearAndRepoint st cfgs
                    (getNextAvailableExpiry avail st.active_expiry)).1
                  products avail hne
                refine ⟨?_, ?_, ?_⟩
                · show (ethSubscribeToOptions (clearAndRepoint st cfgs
                      (getNextAvailableExpiry avail st.active_expiry)).1
                      products avail).active_expiry
                    = getNextAvailableExpiry avail st.active_expiry
                  exact hspec.1
                · show (ethSubscribeToOptions (clearAndRepoint st cfgs
                      (getNextAvailableExpiry avail st.active_expiry)).1
                      products avail).active_symbols ≠ []
                  exact hspec.2
                · show (clearAndRepoint st cfgs
                      (getNextAvailableExpiry avail st.active_expiry)).2
                    = repointConfigs cfgs
                        ((ethSubscribeToOptions (clearAndRepoint st cfgs
                          (getNextAvailableExpiry avail st.active_expiry)).1
                          products avail).active_expiry)
                  rw [hspec.1]
                  rfl
        · rw [if_neg h2] at h
          simp at h
      · rw [if_neg h1] at h
        simp at h

lemma ethTryDelist_some_spec (st : BotState) (cfgs : AlertConfigs)
    (avail : List String) (connected : Bool) (products : List Product)
    (st' : BotState) (cfgs' : AlertConfigs)
    (h : ethTryDelist st cfgs avail connected products = some (st', cfgs')) :
    getNextAvailableExpiry avail st.active_expiry ≠ st.active_expiry ∧
    st'.options_prices = [] ∧
    cfgs' = repointConfigs cfgs (getNextAvailableExpiry avail st.active_expiry) ∧
    (connected = false →
      st'.active_expiry = getNextAvailableExpiry avail st.active_expiry ∧
      st'.active_symbols = [] ∧ st'.chain_calls = [] ∧ st'.chain_puts = [] ∧
      cfgs' = repointConfigs cfgs st'.active_expiry) ∧
    (connected = true →
      (ethCollectSymbols products
          (getNextAvailableExpiry avail st.active_expiry)).1 ≠ [] →
      st'.active_expiry = getNextAvailableExpiry avail st.active_expiry ∧
      st'.active_symbols ≠ [] ∧
      cfgs' = repointConfigs cfgs st'.active_expiry) := by
  unfold ethTryDelist at h
  dsimp only at h
  by_cases h1 : avail ≠ [] ∧ st.active_expiry ∉ avail
  · rw [if_pos h1] at h
    by_cases h2 : getNextAvailableExpiry avail st.active_expiry ≠ st.active_expiry
    · rw [if_pos h2] at h
      injection h with hpair
      have hst : st' = (if connected then ethSubscribeToOptions
          (clearAndRepoint st cfgs
            (getNextAvailableExpiry avail st.active_expiry)).1
          products avail
          else (clearAndRepoint st cfgs
            (getNextAvailableExpiry avail st.active_expiry)).1) :=
        (congrArg Prod.fst hpair).symm
      have hcf : cfgs' = (clearAndRepoint st cfgs
          (getNextAvailableExpiry avail st.active_expiry)).2 :=
        (congrArg Prod.snd hpair).symm
      subst hst
      subst hcf
      cases connected with
      | false =>
          refine ⟨h2, rfl, rfl, ?_, ?_⟩
          · intro _
            exact ⟨rfl, rfl, rfl, rfl, rfl⟩
          · intro hc
            cases hc
      | true =>
          refine ⟨h2, ?_, rfl, ?_, ?_⟩
          · show (ethSubscribeToOptions (clearAndRepoint st cfgs
                (getNextAvailableExpiry avail st.active_expiry)).1
                products avail).options_prices = []
            rw [ethSubscribeToOptions_options_prices]
            rfl
          · intro hc
            cases hc
          · intro _ hne
            have hspec := ethSubscribe_no_switch
              (clearAndRepoint st cfgs
                (getNextAvailableExpiry avail st.active_expiry)).1
              products avail hne
            refine ⟨?_, ?_, ?_⟩
            · show (ethSubscribeToOptions (clearAndRepoint st cfgs
                  (getNextAvailableExpiry avail st.active_expiry)).1
                  products avail).active_expiry
                = getNextAvailableExpiry avail st.active_expiry
              exact hspec.1
            · show (ethSubscribeToOptions (clearAndRepoint st cfgs
                  (getNextAvailableExpiry avail st.active_expiry)).1
                  products avail).active_symbols ≠ []
              exact hspec.2
            · show (clearAndRepoint st cfgs
                  (getNextAvailableExpiry avail st.active_expiry)).2
                = repointConfigs cfgs
                    ((ethSubscribeToOptions (clearAndRepoint st cfgs
                      (getNextAvailableExpiry avail st.active_expiry)).1
                      products avail).active_expiry)
              rw [hspec.1]
              rfl
    · rw [if_neg h2] at h
      simp at h
  · rw [if_neg h1] at h
    simp at h

lemma btcTryRollover_some_spec (st : BotState) (cfgs : AlertConfigs)
    (rc : Option String) (avail : List String)
    (st' : BotState) (cfgs' : AlertConfigs)
    (h : btcTryRollover st cfgs rc avail = some (st', cfgs')) :
    st'.active_expiry ≠ st.active_expiry ∧ st'.options_prices = [] ∧
    st'.active_symbols = [] ∧ st'.chain_calls = [] ∧ st'.chain_puts = [] ∧
    cfgs' = repointConfigs cfgs st'.active_expiry := by
  cases rc with
  | none => simp [btcTryRollover] at h
  | some nxt =>
      unfold btcTryRollover at h
      dsimp only at h
      by_cases h1 : nxt ≠ st.active_expiry
      · rw [if_pos h1] at h
        by_cases h2 : getNextAvailableExpiry avail st.active_expiry ≠ st.active_expiry
        · rw [if_pos h2] at h
          injection h with hpair
          have hst : st' = (clearAndRepoint st cfgs
              (getNextAvailableExpiry avail st.active_expiry)).1 :=
            (congrArg Prod.fst hpair).symm
          have hcf : cfgs' = (clearAndRepoint st cfgs
              (getNextAvailableExpiry avail st.active_expiry)).2 :=
            (congrArg Prod.snd hpair).symm
          subst hst
          subst hcf
          exact ⟨h2, rfl, rfl, rfl, rfl, rfl⟩
        · rw [if_neg h2] at h
          simp at h
      · rw [if_neg h1] at h
        simp at h

lemma btcTryDelist_some_spec (st : BotState) (cfgs : AlertConfigs)
    (avail : List String) (st' : BotState) (cfgs' : AlertConfigs)
    (h : btcTryDelist st cfgs avail = some (st', cfgs')) :
    st'.active_expiry ≠ st.active_expiry ∧ st'.options_prices = [] ∧
    st'.active_symbols = [] ∧ st'.chain_calls = [] ∧ st'.chain_puts = [] ∧
    cfgs' = repointConfigs cfgs st'.active_expiry := by
  unfold btcTryDelist at h
  dsimp only at h
  by_cases h1 : avail ≠ [] ∧ st.active_expiry ∉ avail
  · rw [if_pos h1] at h
    by_cases h2 : getNextAvailableExpiry avail st.active_expiry ≠ st.active_expiry
    · rw [if_pos h2] at h
      injection h with hpair
      have hst : st' = (clearAndRepoint st cfgs
          (getNextAvailableExpiry avail st.active_expiry)).1 :=
        (congrArg Prod.fst hpair).symm
      have hcf : cfgs' = (clearAndRepoint st cfgs
          (getNextAvailableExpiry avail st.active_expiry)).2 :=
        (congrArg Prod.snd hpair).symm
      subst hst
      subst hcf
      exact ⟨h2, rfl, rfl, rfl, rfl, rfl⟩
    · rw [if_neg h2] at h
      simp at h
  · rw [if_neg h1] at h
    simp at h

lemma ethStep_roll_eq (st : BotState) (cfgs : AlertConfigs) (now : ℚ)
    (rc : Option String) (avail : List String) (connected : Bool)
    (products : List Product) (st' : BotState) (cfgs' : AlertConfigs)
    (ht : EXPIRY_CHECK_INTERVAL ≤ now - st.last_expiry_check)
    (hro : ethTryRollover { st with last_expiry_check := now } cfgs rc avail
        connected products = some (st', cfgs')) :
    ethCheckAndUpdateExpiry st cfgs now rc avail connected products
      = (st', cfgs', true) := by
  unfold ethCheckAndUpdateExpiry
  rw [if_pos ht]
  dsimp only
  rw [hro]

lemma ethStep_delist_eq (st : BotState) (cfgs : AlertConfigs) (now : ℚ)
    (rc : Option String) (avail : List String) (connected : Bool)
    (products : List Product) (st' : BotState) (cfgs' : AlertConfigs)
    (ht : EXPIRY_CHECK_INTERVAL ≤ now - st.last_expiry_check)
    (hro : ethTryRollover { st with last_expiry_check := now } cfgs rc avail
        connected products = none)
    (hde : ethTryDelist { st with last_expiry_check := now } cfgs avail
        connected products = some (st', cfgs')) :
    ethCheckAndUpdateExpiry st cfgs now rc avail connected products
      = (st', cfgs', true) := by
  unfold ethCheckAndUpdateExpiry
  rw [if_pos ht]
  dsimp only
  rw [hro]
  dsimp only
  rw [hde]

lemma ethStep_no_change (st : BotState) (cfgs : AlertConfigs) (now : ℚ)
    (rc : Option String) (avail : List String) (connected : Bool)
    (products : List Product)
    (ht : EXPIRY_CHECK_INTERVAL ≤ now - st.last_expiry_check)
    (hro : ethTryRollover { st with last_expiry_check := now } cfgs rc avail
        connected products = none)
    (hde : ethTryDelist { st with last_expiry_check := now } cfgs avail
        connected products = none) :
    ethCheckAndUpdateExpiry st cfgs now rc avail connected products
      = ({ st with last_expiry_check := now }, cfgs, false) := by
  unfold ethCheckAndUpdateExpiry
  rw [if_pos ht]
  dsimp only
  rw [hro]
  dsimp only
  rw [hde]

lemma ethStep_skip (st : BotState) (cfgs : AlertConfigs) (now : ℚ)
    (rc : Option String) (avail : List String) (connected : Bool)
    (products : List Product)
    (ht : ¬EXPIRY_CHECK_INTERVAL ≤ now - st.last_expiry_check) :
    ethCheckAndUpdateExpiry st cfgs now rc avail connected products
      = (st, cfgs, false) := by
  unfold ethCheckAndUpdateExpiry
  rw [if_neg ht]

lemma btcStep_roll_eq (st : BotState) (cfgs : AlertConfigs) (now : ℚ)
    (rc : Option String) (avail : List String)
    (st' : BotState) (cfgs' : AlertConfigs)
    (ht : EXPIRY_CHECK_INTERVAL ≤ now - st.last_expiry_check)
    (hro : btcTryRollover { st with last_expiry_check := now } cfgs rc avail
        = some (st', cfgs')) :
    btcCheckAndUpdateExpiry st cfgs now rc avail = (st', cfgs', true) := by
  unfold btcCheckAndUpdateExpiry
  rw [if_pos ht]
  dsimp only
  rw [hro]

lemma btcStep_delist_eq (st : BotState) (cfgs : AlertConfigs) (now : ℚ)
    (rc : Option String) (avail : List String)
    (st' : BotState) (cfgs' : AlertConfigs)
    (ht : EXPIRY_CHECK_INTERVAL ≤ now - st.last_expiry_check)
    (hro : btcTryRollover { st with last_expiry_check := now } cfgs rc avail = none)
    (hde : btcTryDelist { st with last_expiry_check := now } cfgs avail
        = some (st', cfgs')) :
    btcCheckAndUpdateExpiry st cfgs now rc avail = (st', cfgs', true) := by
  unfold btcCheckAndUpdateExpiry
  rw [if_pos ht]
  dsimp only
  rw [hro]
  dsimp only
  rw [hde]

lemma btcStep_no_change (st : BotState) (cfgs : AlertConfigs) (now : ℚ)
    (rc : Option String) (avail : List String)
    (ht : EXPIRY_CHECK_INTERVAL ≤ now - st.last_expiry_check)
    (hro : btcTryRollover { st with last_expiry_check := now } cfgs rc avail = none)
    (hde : btcTryDelist { st with last_expiry_check := now } cfgs avail = none) :
    btcCheckAndUpdateExpiry st cfgs now rc avail
      = ({ st with last_expiry_check := now }, cfgs, false) := by
  unfold btcCheckAndUpdateExpiry
  rw [if_pos ht]
  dsimp only
  rw [hro]
  dsimp only
  rw [hde]

lemma btcStep_skip (st : BotState) (cfgs : AlertConfigs) (now : ℚ)
    (rc : Option String) (avail : List String)
    (ht : ¬EXPIRY_CHECK_INTERVAL ≤ now - st.last_expiry_check) :
    btcCheckAndUpdateExpiry st cfgs now rc avail = (st, cfgs, false) := by
  unfold btcCheckAndUpdateExpiry
  rw [if_neg ht]


/-- C8 (amended): whenever a paced `check_and_update_expiry` tick of either
bot reports a transition (rollover or delisting), the expiry resolved from
the live listing differs from the old active expiry, the post-state
options-price snapshot is empty (hence holds zero entries referencing the
previous expiry), and the post-transition config set equals the repointing
of the old one at the resolved expiry — the bound expiry of every
monitoring rule is rewritten to it, non-monitoring rules are untouched.
For the BTC bot the post-state active expiry is the resolved expiry and
the symbol list and both chain sides are empty; the same holds for a
disconnected ETH bot, and a connected ETH bot whose resubscription
collects symbols for the resolved expiry keeps it as the post-state
active expiry with a non-empty symbol list — so in all those cases the
repointed configs reference the post-state active expiry.  A connected
ETH resubscription that collects no symbols for the resolved expiry can
instead auto-switch the active expiry onward again without re-repointing
the configs, as the concrete counterexample below shows. -/
theorem rollover_transition_clears (st : BotState) (cfgs : AlertConfigs)
    (now : ℚ) (rollCandidate : Option String) (avail : List String)
    (connected : Bool) (products : List Product)
    (heth : (ethCheckAndUpdateExpiry st cfgs now rollCandidate avail
        connected products).2.2 = true)
    (hbtc : (btcCheckAndUpdateExpiry st cfgs now rollCandidate avail).2.2
        = true) :
    (getNextAvailableExpiry avail st.active_expiry ≠ st.active_expiry ∧
     (ethCheckAndUpdateExpiry st cfgs now rollCandidate avail connected
        products).1.options_prices = [] ∧
     (ethCheckAndUpdateExpiry st cfgs now rollCandidate avail connected
        products).2.1
       = repointConfigs cfgs (getNextAvailableExpiry avail st.active_expiry) ∧
     (connected = false →
       (ethCheckAndUpdateExpiry st cfgs now rollCandidate avail connected
          products).1.active_expiry
         = getNextAvailableExpiry avail st.active_expiry ∧
       (ethCheckAndUpdateExpiry st cfgs now rollCandidate avail connected
          products).1.active_symbols = [] ∧
       (ethCheckAndUpdateExpiry st cfgs now rollCandidate avail connected
          products).1.chain_calls = [] ∧
       (ethCheckAndUpdateExpiry st cfgs now rollCandidate avail connected
          products).1.chain_puts = [] ∧
       (ethCheckAndUpdateExpiry st cfgs now rollCandidate avail connected
          products).2.1
         = repointConfigs cfgs (ethCheckAndUpdateExpiry st cfgs now
             rollCandidate avail connected products).1.active_expiry) ∧
     (connected = true →
       (ethCollectSymbols products
           (getNextAvailableExpiry avail st.active_expiry)).1 ≠ [] →
       (ethCheckAndUpdateExpiry st cfgs now rollCandidate avail connected
          products).1.active_expiry
         = getNextAvailableExpiry avail st.active_expiry ∧
       (ethCheckAndUpdateExpiry st cfgs now rollCandidate avail connected
          products).1.active_symbols ≠ [] ∧
       (ethCheckAndUpdateExpiry st cfgs now rollCandidate avail connected
          products).2.1
         = repointConfigs cfgs (ethCheckAndUpdateExpiry st cfgs now
             rollCandidate avail connected products).1.active_expiry)) ∧
    ((btcCheckAndUpdateExpiry st cfgs now rollCandidate avail).1.active_expiry
        ≠ st.active_expiry ∧
     (btcCheckAndUpdateExpiry st cfgs now rollCandidate avail).1.options_prices = [] ∧
     (btcCheckAndUpdateExpiry st cfgs now rollCandidate avail).1.active_symbols = [] ∧
     (btcCheckAndUpdateExpiry st cfgs now rollCandidate avail).1.chain_calls = [] ∧
     (btcCheckAndUpdateExpiry st cfgs now rollCandidate avail).1.chain_puts = [] ∧
     (btcCheckAndUpdateExpiry st cfgs now rollCandidate avail).2.1
       = repointConfigs cfgs
           (btcCheckAndUpdateExpiry st cfgs now rollCandidate avail).1.active_expiry) ∧
    (∀ c : AlertConfig, ∀ e : String,
      (repointConfig c e).active_expiry
        = (if c.is_monitoring then e else c.active_expiry) ∧
      (repointConfig c e).is_monitoring = c.is_monitoring) := by
  refine ⟨?_, ?_, ?_⟩
  · by_cases ht : EXPIRY_CHECK_INTERVAL ≤ now - st.last_expiry_check
    · cases hro : ethTryRollover { st with last_expiry_check := now } cfgs
        rollCandidate avail connected products with
      | some pr =>
          obtain ⟨st', cfgs'⟩ := pr
          have heq := ethStep_roll_eq st cfgs now rollCandidate avail connected
            products st' cfgs' ht hro
          rw [heq]
          exact ethTryRollover_some_spec { st with last_expiry_check := now }
            cfgs rollCandidate avail connected products st' cfgs' hro
      | none =>
          cases hde : ethTryDelist { st with last_expiry_check := now } cfgs
            avail connected products with
          | some pr =>
              obtain ⟨st', cfgs'⟩ := pr
              have heq := ethStep_delist_eq st cfgs now rollCandidate avail
                connected products st' cfgs' ht hro hde
              rw [heq]
              exact ethTryDelist_some_spec { st with last_expiry_check := now }
                cfgs avail connected products st' cfgs' hde
          | none =>
              have heq := ethStep_no_change st cfgs now rollCandidate avail
                connected products ht hro hde
              rw [heq] at heth
              simp at heth
    · have heq := ethStep_skip st cfgs now rollCandidate avail connected
        products ht
      rw [heq] at heth
      simp at heth
  · by_cases ht : EXPIRY_CHECK_INTERVAL ≤ now - st.last_expiry_check
    · cases hro : btcTryRollover { st with last_expiry_check := now } cfgs
        rollCandidate avail with
      | some pr =>
          obtain ⟨st', cfgs'⟩ := pr
          have heq := btcStep_roll_eq st cfgs now rollCandidate avail st' cfgs'
            ht hro
          rw [heq]
          exact btcTryRollover_some_spec { st with last_expiry_check := now }
            cfgs rollCandidate avail st' cfgs' hro
      | none =>
          cases hde : btcTryDelist { st with last_expiry_check := now } cfgs
            avail with
          | some pr =>
              obtain ⟨st', cfgs'⟩ := pr
              have heq := btcStep_delist_eq st cfgs now rollCandidate avail st'
                cfgs' ht hro hde
              rw [heq]
              exact btcTryDelist_some_spec { st with last_expiry_check := now }
                cfgs avail st' cfgs' hde
          | none =>
              have heq := btcStep_no_change st cfgs now rollCandidate avail
                ht hro hde
              rw [heq] at hbtc
              simp at hbtc
    · have heq := btcStep_skip st cfgs now rollCandidate avail ht
      rw [heq] at hbtc
      simp at hbtc
  · intro c e
    constructor
    · unfold repointConfig
      by_cases hm : c.is_monitoring <;> simp [hm]
    · unfold repointConfig
      by_cases hm : c.is_monitoring <;> simp [hm]

lemma ethTryRollover_empty (st : BotState) (cfgs : AlertConfigs)
    (rc : Option String) (connected : Bool) (products : List Product) :
    ethTryRollover st cfgs rc [] connected products = none := by
  cases rc with
  | none => rfl
  | some nxt =>
      unfold ethTryRollover
      dsimp only
      by_cases h1 : nxt ≠ st.active_expiry
      · rw [if_pos h1]
        have hg : getNextAvailableExpiry [] st.active_expiry = st.active_expiry := rfl
        rw [if_neg (not_not_intro hg)]
      · rw [if_neg h1]

lemma ethTryDelist_empty (st : BotState) (cfgs : AlertConfigs)
    (connected : Bool) (products : List Product) :
    ethTryDelist st cfgs [] connected products = none := by
  unfold ethTryDelist
  dsimp only
  rw [if_neg (fun h => h.1 rfl)]

lemma btcTryRollover_empty (st : BotState) (cfgs : AlertConfigs)
    (rc : Option String) :
    btcTryRollover st cfgs rc [] = none := by
  cases rc with
  | none => rfl
  | some nxt =>
      unfold btcTryRollover
      dsimp only
      by_cases h1 : nxt ≠ st.active_expiry
      · rw [if_pos h1]
        have hg : getNextAvailableExpiry [] st.active_expiry = st.active_expiry := rfl
        rw [if_neg (not_not_intro hg)]
      · rw [if_neg h1]

lemma btcTryDelist_empty (st : BotState) (cfgs : AlertConfigs) :
    btcTryDelist st cfgs [] = none := by
  unfold btcTryDelist
  dsimp only
  rw [if_neg (fun h => h.1 rfl)]

/-- C10: on an empty live-expiry listing (as a fetch failure yields),
`get_next_available_expiry` returns the current expiry unchanged, and a
`check_and_update_expiry` tick of either bot — through both its rollover
and delisting paths — leaves the active expiry untouched. -/
theorem empty_listing_preserves_expiry (st : BotState) (cfgs : AlertConfigs)
    (now : ℚ) (rollCandidate : Option String) (connected : Bool)
    (products : List Product) (cur : String) :
    getNextAvailableExpiry [] cur = cur ∧
    (ethCheckAndUpdateExpiry st cfgs now rollCandidate [] connected
        products).1.active_expiry = st.active_expiry ∧
    (btcCheckAndUpdateExpiry st cfgs now rollCandidate []).1.active_expiry
      = st.active_expiry := by
  refine ⟨rfl, ?_, ?_⟩
  · by_cases ht : EXPIRY_CHECK_INTERVAL ≤ now - st.last_expiry_check
    · rw [ethStep_no_change st cfgs now rollCandidate [] connected products ht
        (ethTryRollover_empty _ _ _ _ _) (ethTryDelist_empty _ _ _ _)]
    · rw [ethStep_skip st cfgs now rollCandidate [] connected products ht]
  · by_cases ht : EXPIRY_CHECK_INTERVAL ≤ now - st.last_expiry_check
    · rw [btcStep_no_change st cfgs now rollCandidate [] ht
        (btcTryRollover_empty _ _ _) (btcTryDelist_empty _ _)]
    · rw [btcStep_skip st cfgs now rollCandidate [] ht]

/-- Concrete pre-transition state for the rollover witness: active expiry
010126 with a populated snapshot, symbol list and call chain. -/
def stW : BotState :=
  ⟨"010126", [("C-BTC-100000-010126", ⟨1, 2⟩)], ["C-BTC-100000-010126"],
   [(100000, "C-BTC-100000-010126")], [], 0, 0⟩

/-- Concrete config set for the rollover witness: one monitoring rule bound
to 010126, three idle ones. -/
def cfgsW : AlertConfigs :=
  ⟨⟨100000, 500, true, "", "010126"⟩, ⟨0, 0, false, "", ""⟩,
   ⟨0, 0, false, "", ""⟩, ⟨0, 0, false, "", ""⟩⟩

lemma nextExpiryW :
    getNextAvailableExpiry ["010126", "020126"] "010126" = "020126" := by
  have hd1 : decide (("010126" : String) < "010126") = false :=
    decide_eq_false (lt_irrefl _)
  have hd2 : decide (("010126" : String) < "020126") = true :=
    decide_eq_true (by rw [String.lt_iff_toList_lt]; decide)
  unfold getNextAvailableExpiry
  rw [if_neg (by simp)]
  simp only [List.find?, hd1, hd2]

lemma ethTryRolloverW :
    ethTryRollover { stW with last_expiry_check := 100 } cfgsW
      (some "020126") ["010126", "020126"] false []
      = some ((clearAndRepoint { stW with last_expiry_check := 100 } cfgsW
            "020126").1,
          (clearAndRepoint { stW with last_expiry_check := 100 } cfgsW
            "020126").2) := by
  unfold ethTryRollover
  dsimp only
  have hae : stW.active_expiry = "010126" := rfl
  rw [hae, nextExpiryW]
  rw [if_pos (by decide : ("020126" : String) ≠ "010126")]
  rw [if_pos (by decide : ("020126" : String) ≠ "010126")]
  rfl

lemma btcTryRolloverW :
    btcTryRollover { stW with last_expiry_check := 100 } cfgsW
      (some "020126") ["010126", "020126"]
      = some ((clearAndRepoint { stW with last_expiry_check := 100 } cfgsW
            "020126").1,
          (clearAndRepoint { stW with last_expiry_check := 100 } cfgsW
            "020126").2) := by
  unfold btcTryRollover
  dsimp only
  have hae : stW.active_expiry = "010126" := rfl
  rw [hae, nextExpiryW]
  rw [if_pos (by decide : ("020126" : String) ≠ "010126")]
  rw [if_pos (by decide : ("020126" : String) ≠ "010126")]

lemma ethStepFlagW :
    (ethCheckAndUpdateExpiry stW cfgsW 100 (some "020126")
      ["010126", "020126"] false []).2.2 = true := by
  rw [ethStep_roll_eq stW cfgsW 100 (some "020126") ["010126", "020126"]
    false [] _ _ (by norm_num [EXPIRY_CHECK_INTERVAL, stW]) ethTryRolloverW]

lemma btcStepFlagW :
    (btcCheckAndUpdateExpiry stW cfgsW 100 (some "020126")
      ["010126", "020126"]).2.2 = true := by
  rw [btcStep_roll_eq stW cfgsW 100 (some "020126") ["010126", "020126"]
    _ _ (by norm_num [EXPIRY_CHECK_INTERVAL, stW]) btcTryRolloverW]

/-- Witness for `rollover_transition_clears` at the concrete rollover of
`stW`/`cfgsW` from 010126 to 020126 at time 100, disconnected, with an
empty product directory. -/
theorem rollover_transition_clears_witness :
    ((ethCheckAndUpdateExpiry stW cfgsW 100 (some "020126")
        ["010126", "020126"] false []).2.2 = true ∧
     (btcCheckAndUpdateExpiry stW cfgsW 100 (some "020126")
        ["010126", "020126"]).2.2 = true) ∧
    ((getNextAvailableExpiry ["010126", "020126"] stW.active_expiry
        ≠ stW.active_expiry ∧
      (ethCheckAndUpdateExpiry stW cfgsW 100 (some "020126")
         ["010126", "020126"] false []).1.options_prices = [] ∧
      (ethCheckAndUpdateExpiry stW cfgsW 100 (some "020126")
         ["010126", "020126"] false []).2.1
        = repointConfigs cfgsW
            (getNextAvailableExpiry ["010126", "020126"] stW.active_expiry) ∧
      (false = false →
        (ethCheckAndUpdateExpiry stW cfgsW 100 (some "020126")
           ["010126", "020126"] false []).1.active_expiry
          = getNextAvailableExpiry ["010126", "020126"] stW.active_expiry ∧
        (ethCheckAndUpdateExpiry stW cfgsW 100 (some "020126")
           ["010126", "020126"] false []).1.active_symbols = [] ∧
        (ethCheckAndUpdateExpiry stW cfgsW 100 (some "020126")
           ["010126", "020126"] false []).1.chain_calls = [] ∧
        (ethCheckAndUpdateExpiry stW cfgsW 100 (some "020126")
           ["010126", "020126"] false []).1.chain_puts = [] ∧
        (ethCheckAndUpdateExpiry stW cfgsW 100 (some "020126")
           ["010126", "020126"] false []).2.1
          = repointConfigs cfgsW
              (ethCheckAndUpdateExpiry stW cfgsW 100 (some "020126")
                ["010126", "020126"] false []).1.active_expiry) ∧
      (false = true →
        (ethCollectSymbols []
            (getNextAvailableExpiry ["010126", "020126"]
              stW.active_expiry)).1 ≠ [] →
        (ethCheckAndUpdateExpiry stW cfgsW 100 (some "020126")
           ["010126", "020126"] false []).1.active_expiry
          = getNextAvailableExpiry ["010126", "020126"] stW.active_expiry ∧
        (ethCheckAndUpdateExpiry stW cfgsW 100 (some "020126")
           ["010126", "020126"] false []).1.active_symbols ≠ [] ∧
        (ethCheckAndUpdateExpiry stW cfgsW 100 (some "020126")
           ["010126", "020126"] false []).2.1
          = repointConfigs cfgsW
              (ethCheckAndUpdateExpiry stW cfgsW 100 (some "020126")
                ["010126", "020126"] false []).1.active_expiry)) ∧
     ((btcCheckAndUpdateExpiry stW cfgsW 100 (some "020126")
        ["010126", "020126"]).1.active_expiry ≠ stW.active_expiry ∧
      (btcCheckAndUpdateExpiry stW cfgsW 100 (some "020126")
        ["010126", "020126"]).1.options_prices = [] ∧
      (btcCheckAndUpdateExpiry stW cfgsW 100 (some "020126")
        ["010126", "020126"]).1.active_symbols = [] ∧
      (btcCheckAndUpdateExpiry stW cfgsW 100 (some "020126")
        ["010126", "020126"]).1.chain_calls = [] ∧
      (btcCheckAndUpdateExpiry stW cfgsW 100 (some "020126")
        ["010126", "020126"]).1.chain_puts = [] ∧
      (btcCheckAndUpdateExpiry stW cfgsW 100 (some "020126")
        ["010126", "020126"]).2.1
        = repointConfigs cfgsW
            (btcCheckAndUpdateExpiry stW cfgsW 100 (some "020126")
              ["010126", "020126"]).1.active_expiry) ∧
     (∀ c : AlertConfig, ∀ e : String,
       (repointConfig c e).active_expiry
         = (if c.is_monitoring then e else c.active_expiry) ∧
       (repointConfig c e).is_monitoring = c.is_monitoring)) :=
  ⟨⟨ethStepFlagW, btcStepFlagW⟩,
   rollover_transition_clears stW cfgsW 100 (some "020126")
     ["010126", "020126"] false [] ethStepFlagW btcStepFlagW⟩

/-- Product directory for the auto-switch counterexample: a single ETH call
for expiry 030126 and nothing at all for 020126. -/
def productsCE : List Product :=
  [⟨"C-ETH-3000-030126", "call_options"⟩]

/-- Live expiry listing for the auto-switch counterexample. -/
def availCE : List String := ["010126", "020126", "030126"]

lemma nextCE1 : getNextAvailableExpiry availCE "010126" = "020126" := by
  have hd1 : decide (("010126" : String) < "010126") = false :=
    decide_eq_false (lt_irrefl _)
  have hd2 : decide (("010126" : String) < "020126") = true :=
    decide_eq_true (by rw [String.lt_iff_toList_lt]; decide)
  unfold getNextAvailableExpiry availCE
  rw [if_neg (by simp)]
  simp only [List.find?, hd1, hd2]

lemma nextCE2 : getNextAvailableExpiry availCE "020126" = "030126" := by
  have hd1 : decide (("020126" : String) < "010126") = false :=
    decide_eq_false
      (fun hlt => absurd (String.lt_iff_toList_lt.mp hlt) (by decide))
  have hd2 : decide (("020126" : String) < "020126") = false :=
    decide_eq_false (lt_irrefl _)
  have hd3 : decide (("020126" : String) < "030126") = true :=
    decide_eq_true (by rw [String.lt_iff_toList_lt]; decide)
  unfold getNextAvailableExpiry availCE
  rw [if_neg (by simp)]
  simp only [List.find?, hd1, hd2, hd3]

lemma ethGetAllCE :
    ethGetAllOptionsSymbols productsCE availCE (availCE.length + 1) "020126"
      = ("030126", ["C-ETH-3000-030126"], [(3000, "C-ETH-3000-030126")], []) := by
  have hc1 : ethCollectSymbols productsCE "020126"
      = (([] : List String), ([] : List (ℕ × String)),
         ([] : List (ℕ × String))) := by decide
  have hc2 : ethCollectSymbols productsCE "030126"
      = (["C-ETH-3000-030126"], [(3000, "C-ETH-3000-030126")],
         ([] : List (ℕ × String))) := by decide
  unfold ethGetAllOptionsSymbols
  dsimp only
  rw [hc1]
  dsimp only
  rw [if_pos (show (sortedStrings ([] : List String)).isEmpty = true from rfl)]
  rw [if_pos (show availCE.isEmpty = false from rfl)]
  rw [nextCE2]
  rw [if_pos (show ("030126" : String) ≠ "020126" from by decide)]
  rw [show availCE.length = 2 + 1 from rfl]
  unfold ethGetAllOptionsSymbols
  dsimp only
  rw [hc2]
  dsimp only
  rw [if_neg (show ¬ (sortedStrings ["C-ETH-3000-030126"]).isEmpty = true
    from by decide)]
  decide

lemma ethSubscribeCE :
    ethSubscribeToOptions
        (clearAndRepoint { stW with last_expiry_check := 100 } cfgsW
          "020126").1 productsCE availCE
      = { active_expiry := "030126", options_prices := [],
          active_symbols := ["C-ETH-3000-030126"],
          chain_calls := [(3000, "C-ETH-3000-030126")], chain_puts := [],
          expiry_rollover_count := 1, last_expiry_check := 100 } := by
  unfold ethSubscribeToOptions
  dsimp only
  rw [show (clearAndRepoint { stW with last_expiry_check := 100 } cfgsW
      "020126").1.active_expiry = "020126" from rfl]
  rw [ethGetAllCE]
  dsimp only
  rw [if_neg (show ¬ (["C-ETH-3000-030126"] : List String).isEmpty = true
    from by decide)]
  rfl

lemma ethTryRolloverCE :
    ethTryRollover { stW with last_expiry_check := 100 } cfgsW (some "020126")
        availCE true productsCE
      = some (ethSubscribeToOptions
            (clearAndRepoint { stW with last_expiry_check := 100 } cfgsW
              "020126").1 productsCE availCE,
          (clearAndRepoint { stW with last_expiry_check := 100 } cfgsW
            "020126").2) := by
  unfold ethTryRollover
  dsimp only
  have hae : stW.active_expiry = "010126" := rfl
  rw [hae, nextCE1]
  rw [if_pos (show ("020126" : String) ≠ "010126" from by decide)]
  rw [if_pos (show ("020126" : String) ≠ "010126" from by decide)]
  rfl

/-- C8 counterexample: a connected ETH rollover at time 100 from active
expiry 010126 resolves 020126, clears the snapshot and repoints the
monitoring rule to 020126 — but the resubscription finds no symbols for
020126, auto-switches the active expiry to 030126 (app.py lines 400-409)
and resubscribes there, so the flagged transition ends with the monitored
rule bound to the stale 020126 while the active expiry is 030126: the
configs do not equal the repointing of the old set at the new active
expiry, refuting the claim as stated. -/
theorem eth_autoswitch_leaves_stale_configs :
    (ethCheckAndUpdateExpiry stW cfgsW 100 (some "020126") availCE true
        productsCE).2.2 = true ∧
    (ethCheckAndUpdateExpiry stW cfgsW 100 (some "020126") availCE true
        productsCE).1.active_expiry = "030126" ∧
    (ethCheckAndUpdateExpiry stW cfgsW 100 (some "020126") availCE true
        productsCE).2.1.btc_call.is_monitoring = true ∧
    (ethCheckAndUpdateExpiry stW cfgsW 100 (some "020126") availCE true
        productsCE).2.1.btc_call.active_expiry = "020126" ∧
    (ethCheckAndUpdateExpiry stW cfgsW 100 (some "020126") availCE true
        productsCE).2.1.btc_call.active_expiry
      ≠ (ethCheckAndUpdateExpiry stW cfgsW 100 (some "020126") availCE true
          productsCE).1.active_expiry ∧
    (ethCheckAndUpdateExpiry stW cfgsW 100 (some "020126") availCE true
        productsCE).2.1
      ≠ repointConfigs cfgsW
          (ethCheckAndUpdateExpiry stW cfgsW 100 (some "020126") availCE true
            productsCE).1.active_expiry := by
  have ht : EXPIRY_CHECK_INTERVAL ≤ (100 : ℚ) - stW.last_expiry_check := by
    norm_num [EXPIRY_CHECK_INTERVAL, stW]
  have heq := ethStep_roll_eq stW cfgsW 100 (some "020126") availCE true
    productsCE _ _ ht ethTryRolloverCE
  rw [heq, ethSubscribeCE]
  refine ⟨rfl, rfl, rfl, rfl, by decide, ?_⟩
  intro hcontra
  have h2 := congrArg (fun c : AlertConfigs => c.btc_call.active_expiry) hcontra
  exact absurd h2 (by decide)
